import Mathlib

/-!
Verification development for the antsibull-docs-loader routing resolver
(`src/antsibull_docs_loader/routing.py`) and the CLI environment helper
(`src/antsibull_docs_loader/ansible_cli.py`).

Python dictionaries are modelled as association lists (`alGet` / `alSet`):
lookup finds the first matching key, assignment replaces the value at an
existing key in place (keeping its position) and appends otherwise, which is
exactly CPython's insertion-ordered dict behaviour.  In-place mutation of the
nested routing dictionaries is modelled by explicit state passing: a write
through a captured dict reference (`plugin_owner`) becomes an update of the
catalog at the path (collection name, plugin type, plugin name), which is
equivalent because the Python code never detaches or replaces the inner
dictionaries, only assigns to their keys.
-/

/-- Association list lookup: Python `d.get(k)` / `d[k]`. -/
def alGet {α : Type} : List (String × α) → String → Option α
  | [], _ => Option.none
  | (k', v) :: rest, k => if k' = k then some v else alGet rest k

/-- Association list store: Python `d[k] = v` (replace in place, append if new). -/
def alSet {α : Type} : List (String × α) → String → α → List (String × α)
  | [], k, v => [(k, v)]
  | (k', v') :: rest, k, v =>
    if k' = k then (k', v) :: rest else (k', v') :: alSet rest k v

/-- Python `tuple(...) or None`: an empty accumulation collapses to `None`. -/
def listOrNone {α : Type} (l : List α) : Option (List α) :=
  if l.isEmpty then Option.none else some l

/-- Splits a character list on `'.'`, mirroring Python `str.split(".")`. -/
def splitDots : List Char → List (List Char)
  | [] => [[]]
  | c :: rest =>
    let groups := splitDots rest
    if c = '.' then [] :: groups
    else
      match groups with
      | [] => [[c]]
      | g :: gs => (c :: g) :: gs

/-- Rejoins groups with `'.'`; inverse of `splitDots`. -/
def joinDots : List (List Char) → List Char
  | [] => []
  | [g] => g
  | g :: gs => g ++ '.' :: joinDots gs

/-- Python `s.split(".", 2)`: at most three parts, the third keeps its dots. -/
def pySplitDot2 (s : String) : List String :=
  match splitDots s.data with
  | a :: b :: c :: rest => [⟨a⟩, ⟨b⟩, ⟨joinDots (c :: rest)⟩]
  | groups => groups.map (fun g => ⟨g⟩)

/-- `removal_date`: a parsed calendar date (already reduced from any datetime)
or a verbatim string, as in `RemovalData.removal_date`. -/
inductive DateOrStr where
  | date (d : String)
  | str (s : String)
deriving DecidableEq

/-- `RemovalData` from routing.py: deprecation/tombstone annotation. -/
structure RemovalData where
  warning_text : Option String
  removal_version : Option String
  removal_date : Option DateOrStr
deriving DecidableEq

/-- The `redirect` field's value space: `None`, the ellipsis cycle marker, or
a target name string (`str | EllipsisType | None` in routing.py). -/
inductive Redirect where
  | none
  | ellipsis
  | str (s : String)
deriving DecidableEq

/-- `PluginRouting` from routing.py (plugin types are the literal strings of
the Python `PluginType` alias). -/
structure PluginRouting where
  action_plugin : Option String
  redirect : Redirect
  redirect_chain : Option (List String)
  redirect_deprecations : Option (List (String × RemovalData))
  redirect_tombstone : Bool
  redirect_dead_end : Bool
  redirect_error : Option String
  deprecation : Option RemovalData
  tombstone : Option RemovalData
deriving DecidableEq

/-- `CollectionRouting`: plugin type → plugin name → `PluginRouting`. -/
structure CollectionRouting where
  plugin_data : List (String × List (String × PluginRouting))
deriving DecidableEq

/-- The catalog handed to the resolver: collection FQN → `CollectionRouting`. -/
abbrev RoutingData := List (String × CollectionRouting)

/-- One element of `_complete_redirect`'s `redirection_list`:
`(fqcn, collection name, plugin name, PluginRouting | None, owning map | None)`.
The owning-map reference is identified by the collection name whose
per-plugin-type map it is (the plugin type is fixed for the whole call). -/
structure RItem where
  fqcn : String
  coll : String
  pname : String
  pdata : Option PluginRouting
  owner : Option String
deriving DecidableEq

/-- Reads the record at catalog path (collection, plugin type, plugin name). -/
def getPlugin (cat : RoutingData) (c t n : String) : Option PluginRouting :=
  match alGet cat c with
  | Option.none => Option.none
  | some cr =>
    match alGet cr.plugin_data t with
    | Option.none => Option.none
    | some m => alGet m n

/-- Writes through the catalog path (collection, plugin type, plugin name);
models assignment into a dict reachable from the catalog.  If the path does
not exist the write would only hit a detached object in Python, invisible in
the catalog, hence the no-op fallbacks. -/
def setPlugin (cat : RoutingData) (c t n : String) (v : PluginRouting) :
    RoutingData :=
  match alGet cat c with
  | Option.none => cat
  | some cr =>
    match alGet cr.plugin_data t with
    | Option.none => cat
    | some m => alSet cat c ⟨alSet cr.plugin_data t (alSet m n v)⟩

/-- Models `if plugin_owner: plugin_owner[plugin_plugin_name] = v`:
no write when the owner reference is `None`, and Python dict truthiness
means an empty owning map also skips the write. -/
def writeOwner (cat : RoutingData) (t : String) (owner : Option String)
    (pname : String) (v : PluginRouting) : RoutingData :=
  match owner with
  | Option.none => cat
  | some c =>
    match alGet cat c with
    | Option.none => cat
    | some cr =>
      match alGet cr.plugin_data t with
      | Option.none => cat
      | some m =>
        if m.isEmpty then cat
        else alSet cat c ⟨alSet cr.plugin_data t (alSet m pname v)⟩

/-- The cycle's deprecation list tagged with positions, routing.py lines
382-386: `((index, (fqcn, deprecation)) for index, elt in enumerate(loop)
if elt[3] is not None and elt[3].deprecation is not None)`. -/
def cycleDeps (index : Nat) : List RItem → List (Nat × (String × RemovalData))
  | [] => []
  | elt :: rest =>
    match elt.pdata with
    | some pd =>
      match pd.deprecation with
      | some d => (index, (elt.fqcn, d)) :: cycleDeps (index + 1) rest
      | Option.none => cycleDeps (index + 1) rest
    | Option.none => cycleDeps (index + 1) rest

/-- The cycle rewrite loop of `_complete_redirect` (routing.py lines 387-426):
`for index, (...) in enumerate(loop)` appending the element's FQN to the
rotating chain, replacing the element's record in its owning map, updating the
returned record when the element is the start node, then dropping the chain's
head.  State: (catalog, returned record, rotating chain). -/
def cycleGo (t fqcn : String) (rdwi : List (Nat × (String × RemovalData))) :
    Nat → List RItem → RoutingData × PluginRouting × List String →
    RoutingData × PluginRouting × List String
  | _, [], st => st
  | index, elt :: rest, (cat, pdret, chain) =>
    let chain := chain ++ [elt.fqcn]
    match elt.pdata with
    | some ppd =>
      let new_pd : PluginRouting :=
        { action_plugin := ppd.action_plugin
          redirect := Redirect.ellipsis
          redirect_chain := some chain
          redirect_deprecations := listOrNone
            (((rdwi.filter (fun q => index ≤ q.1)).map (fun q => q.2)) ++
             ((rdwi.filter (fun q => q.1 < index)).map (fun q => q.2)))
          redirect_tombstone := false
          redirect_dead_end := false
          redirect_error := some "Detected circular redirect"
          deprecation := ppd.deprecation
          tombstone := ppd.tombstone }
      let cat := writeOwner cat t elt.owner elt.pname new_pd
      let pdret := if elt.fqcn = fqcn then new_pd else pdret
      cycleGo t fqcn rdwi (index + 1) rest (cat, pdret, chain.drop 1)
    | Option.none =>
      -- "This should never be reached" in the source; the chain still rotates.
      cycleGo t fqcn rdwi (index + 1) rest (cat, pdret, chain.drop 1)

/-- All local state of `_complete_redirect` at exit of its `while` loop. -/
structure WalkOut where
  catalog : RoutingData
  plugin_data : PluginRouting
  rlist : List RItem
  chain : Option (List String)
  deps : Option (List (String × RemovalData))
  tombstone : Bool
  dead_end : Bool
  error : Option String
  is_loop : Bool
  next_name : String
deriving DecidableEq

/-- The `while True` walk of `_complete_redirect` (routing.py lines 370-472).
The loop's state variables (`redirect_chain`, `redirect_deprecations`, the
flags, `is_loop`) are only assigned immediately before a `break`, so each exit
arm computes them from their initial values.  The recursion is bounded by a
fuel parameter: every continuing iteration adds a catalog-resident name to
`found_names` that was not there before, so any fuel larger than the number of
plugin records in the catalog is never exhausted. -/
def walk (routing_data : RoutingData) (plugin_type fqcn : String)
    (plugin_data : PluginRouting) :
    Nat → List String → List RItem → String → Except String WalkOut
  | 0, _, _, _ => Except.error "RecursionLimit"
  | fuel + 1, found_names, redirection_list, next_name =>
    if next_name ∈ found_names then
      -- We found a cycle! (routing.py lines 371-432)
      match List.findIdx? (fun elt => elt.fqcn = next_name) redirection_list with
      | Option.none => Except.error "StopIteration"
      | some start_index =>
        let loop := redirection_list.drop start_index
        let rdwi := cycleDeps 0 loop
        let st := cycleGo plugin_type fqcn rdwi 0 loop
          (routing_data, plugin_data, loop.map (fun elt => elt.fqcn))
        Except.ok
          { catalog := st.1
            plugin_data := st.2.1
            rlist := redirection_list.take start_index
            chain := some (st.2.2 ++ [next_name])
            deps := listOrNone (rdwi.map (fun q => q.2))
            tombstone := false
            dead_end := false
            error := some "Detected circular redirect"
            is_loop := true
            next_name := next_name }
    else
      let found_names := found_names ++ [next_name]
      match pySplitDot2 next_name with
      | [next_ns, next_cn, next_pn] =>
        let next_coll := next_ns ++ "." ++ next_cn
        match alGet routing_data next_coll with
        | Option.none =>
          -- Found redirect to unknown collection (lines 441-445)
          Except.ok
            { catalog := routing_data
              plugin_data := plugin_data
              rlist := redirection_list ++
                [⟨next_name, next_coll, next_pn, Option.none, Option.none⟩]
              chain := Option.none
              deps := Option.none
              tombstone := false
              dead_end := true
              error := some ("Found redirect to unknown collection " ++ next_coll)
              is_loop := false
              next_name := next_name }
        | some cr =>
          let prd := alGet cr.plugin_data plugin_type
          let pd := match prd with
            | some m => alGet m next_pn
            | Option.none => Option.none
          match pd with
          | some p =>
            match p.tombstone with
            | some ts =>
              -- tombstone termination (lines 448-451); the target is not
              -- appended to the path
              Except.ok
                { catalog := routing_data
                  plugin_data := plugin_data
                  rlist := redirection_list
                  chain := Option.none
                  deps := some [(next_name, ts)]
                  tombstone := true
                  dead_end := false
                  error := Option.none
                  is_loop := false
                  next_name := next_name }
            | Option.none =>
              match p.redirect with
              | Redirect.none =>
                -- clean termination (lines 452-454)
                Except.ok
                  { catalog := routing_data
                    plugin_data := plugin_data
                    rlist := redirection_list ++
                      [⟨next_name, next_coll, next_pn, some p, Option.none⟩]
                    chain := Option.none
                    deps := Option.none
                    tombstone := false
                    dead_end := false
                    error := Option.none
                    is_loop := false
                    next_name := next_name }
              | Redirect.ellipsis =>
                if p.redirect_error.isSome || p.redirect_tombstone ||
                    p.redirect_dead_end then
                  -- reuse of an already-resolved outcome (lines 455-466)
                  Except.ok
                    { catalog := routing_data
                      plugin_data := plugin_data
                      rlist := redirection_list
                      chain := p.redirect_chain
                      deps := p.redirect_deprecations
                      tombstone := p.redirect_tombstone
                      dead_end := p.redirect_dead_end
                      error := p.redirect_error
                      is_loop := true
                      next_name := next_name }
                else
                  Except.error
                    "Bad internal state: circular redirect should have been marked as an error"
              | Redirect.str s =>
                if p.redirect_error.isSome || p.redirect_tombstone ||
                    p.redirect_dead_end then
                  -- reuse of an already-resolved outcome (lines 455-466)
                  Except.ok
                    { catalog := routing_data
                      plugin_data := plugin_data
                      rlist := redirection_list
                      chain := p.redirect_chain
                      deps := p.redirect_deprecations
                      tombstone := p.redirect_tombstone
                      dead_end := p.redirect_dead_end
                      error := p.redirect_error
                      is_loop := false
                      next_name := next_name }
                else
                  -- follow the redirect (lines 471-472)
                  walk routing_data plugin_type fqcn plugin_data fuel found_names
                    (redirection_list ++
                      [⟨next_name, next_coll, next_pn, some p, some next_coll⟩]) s
          | Option.none =>
            -- clean termination with an unknown plugin (lines 452-454)
            Except.ok
              { catalog := routing_data
                plugin_data := plugin_data
                rlist := redirection_list ++
                  [⟨next_name, next_coll, next_pn, Option.none, Option.none⟩]
                chain := Option.none
                deps := Option.none
                tombstone := false
                dead_end := false
                error := Option.none
                is_loop := false
                next_name := next_name }
      | _ =>
        -- Found redirect to non-FQCN (lines 434-438); not appended to the path
        Except.ok
          { catalog := routing_data
            plugin_data := plugin_data
            rlist := redirection_list
            chain := Option.none
            deps := Option.none
            tombstone := false
            dead_end := true
            error := some ("Found redirect to non-FQCN " ++ next_name)
            is_loop := false
            next_name := next_name }

/-- State of the tail-to-head rewrite of `_complete_redirect` (lines 473-503):
(catalog, record to be returned for the start node, accumulated chain,
accumulated deprecations). -/
structure RewriteSt where
  catalog : RoutingData
  pdret : PluginRouting
  chain : Option (List String)
  deps : Option (List (String × RemovalData))
deriving DecidableEq

/-- The tail-to-head rewrite of `_complete_redirect` (lines 473-503), applied
to `reversed(redirection_list)`: pushes each element's FQN onto the chain,
prepends its own deprecation, and replaces its record in its owning map. -/
def rewriteGo (t fqcn : String) (is_loop : Bool) (next_name : String)
    (tomb : Bool) (dead : Bool) (err : Option String) :
    List RItem → RewriteSt → RewriteSt
  | [], st => st
  | elt :: rest, st =>
    let chain := elt.fqcn :: (st.chain.getD [])
    match elt.pdata with
    | some ppd =>
      let deps := match ppd.deprecation with
        | some d => some ((elt.fqcn, d) :: (st.deps.getD []))
        | Option.none => st.deps
      let new_pd : PluginRouting :=
        { action_plugin := ppd.action_plugin
          redirect := if is_loop then Redirect.ellipsis else Redirect.str next_name
          redirect_chain := some chain
          redirect_deprecations := deps
          redirect_tombstone := tomb
          redirect_dead_end := dead
          redirect_error := err
          deprecation := ppd.deprecation
          tombstone := ppd.tombstone }
      let cat := writeOwner st.catalog t elt.owner elt.pname new_pd
      let pdret := if elt.fqcn = fqcn then new_pd else st.pdret
      rewriteGo t fqcn is_loop next_name tomb dead err rest
        ⟨cat, pdret, some chain, deps⟩
    | Option.none =>
      rewriteGo t fqcn is_loop next_name tomb dead err rest
        ⟨st.catalog, st.pdret, some chain, st.deps⟩

/-- Number of plugin records in the catalog; any fuel above this bounds the
walk (each continuing step consumes a distinct catalog-resident name). -/
def pluginCount (rd : RoutingData) : Nat :=
  (rd.map (fun p => (p.2.plugin_data.map (fun q => q.2.length)).sum)).sum

/-- `_complete_redirect` (routing.py lines 346-503).  Returns the rewritten
catalog together with the record for the requested node.  The early return
fires when `redirect` is `None` or the cycle marker, or `redirect_chain` is
already populated (line 354). -/
def completeRedirect (plugin_data : PluginRouting) (routing_data : RoutingData)
    (collection_name plugin_type plugin_name : String) :
    Except String (RoutingData × PluginRouting) :=
  match plugin_data.redirect, plugin_data.redirect_chain with
  | Redirect.str next0, Option.none =>
    let fqcn := collection_name ++ "." ++ plugin_name
    match walk routing_data plugin_type fqcn plugin_data
        (pluginCount routing_data + 2) [fqcn]
        [⟨fqcn, collection_name, plugin_name, some plugin_data, Option.none⟩]
        next0 with
    | Except.error e => Except.error e
    | Except.ok w =>
      let st := rewriteGo plugin_type fqcn w.is_loop w.next_name w.tombstone
        w.dead_end w.error w.rlist.reverse ⟨w.catalog, w.plugin_data, w.chain, w.deps⟩
      Except.ok (st.catalog, st.pdret)
  | _, _ => Except.ok (routing_data, plugin_data)

/-- The plugin-name loop of `complete_redirects_for_collection` (lines
518-525): reads the current record live, resolves it, stores the result. -/
def completeRedirectsNames (routing_data : RoutingData)
    (collection_name plugin_type : String) :
    List String → Except String RoutingData
  | [] => Except.ok routing_data
  | n :: rest =>
    match getPlugin routing_data collection_name plugin_type n with
    | Option.none => Except.error "KeyError"
    | some pdata =>
      match completeRedirect pdata routing_data collection_name plugin_type n with
      | Except.error e => Except.error e
      | Except.ok (cat', res) =>
        completeRedirectsNames (setPlugin cat' collection_name plugin_type n res)
          collection_name plugin_type rest

/-- The plugin-type loop of `complete_redirects_for_collection` (lines
515-525); plugin names are snapshotted per type (`list(plugin_routing_data)`)
before rewriting begins for that type. -/
def completeRedirectsTypes (routing_data : RoutingData) (collection_name : String) :
    List String → Except String RoutingData
  | [] => Except.ok routing_data
  | t :: rest =>
    let names :=
      match alGet routing_data collection_name with
      | some cr => ((alGet cr.plugin_data t).getD []).map (fun q => q.1)
      | Option.none => []
    match completeRedirectsNames routing_data collection_name t names with
    | Except.error e => Except.error e
    | Except.ok rd' => completeRedirectsTypes rd' collection_name rest

/-- `complete_redirects_for_collection` (routing.py lines 506-525). -/
def completeRedirectsForCollection (routing_data : RoutingData)
    (collection_name : String) : Except String RoutingData :=
  match alGet routing_data collection_name with
  | Option.none => Except.ok routing_data
  | some cr =>
    completeRedirectsTypes routing_data collection_name
      (cr.plugin_data.map (fun q => q.1))

/-- The collection loop of `complete_redirects` over a fixed key order. -/
def completeRedirectsColls (routing_data : RoutingData) :
    List String → Except String RoutingData
  | [] => Except.ok routing_data
  | c :: rest =>
    match completeRedirectsForCollection routing_data c with
    | Except.error e => Except.error e
    | Except.ok rd' => completeRedirectsColls rd' rest

/-- `complete_redirects` (routing.py lines 528-533): applies the per-collection
routine to every collection in the catalog's iteration order. -/
def completeRedirects (routing_data : RoutingData) : Except String RoutingData :=
  completeRedirectsColls routing_data (routing_data.map (fun p => p.1))

/-- A parsed YAML value as far as the metadata loader inspects it: a string,
a mapping, a calendar date, a datetime (identified by its date component),
`None`, or any other value (identified by its Python type name together with
its truthiness). -/
inductive YamlVal where
  | str (s : String)
  | map (m : List (String × YamlVal))
  | date (d : String)
  | datetime (d : String)
  | null
  | other (tag : String) (falsy : Bool)

/-- The Python type name used in the loader's error messages. -/
def yamlTypeName : YamlVal → String
  | YamlVal.str _ => "str"
  | YamlVal.map _ => "dict"
  | YamlVal.date _ => "date"
  | YamlVal.datetime _ => "datetime"
  | YamlVal.null => "NoneType"
  | YamlVal.other tag _ => tag

/-- Python truthiness of a parsed YAML value (`if not plugin_data:`). -/
def yamlFalsy : YamlVal → Bool
  | YamlVal.str s => s.isEmpty
  | YamlVal.map m => m.isEmpty
  | YamlVal.date _ => false
  | YamlVal.datetime _ => false
  | YamlVal.null => true
  | YamlVal.other _ f => f

/-- The `removal_date` check of `_load_removal_data` (lines 90-104): a
datetime is reduced to its date component, a date or string is kept.
In all the loader helpers, `typTitle` is `typ.title()` for the two call
sites `"deprecation"` / `"tombstone"`, and the document path interpolated
into the messages is omitted as a constant suffix. -/
def loadRemovalDataDate (m : List (String × YamlVal))
    (plugin_type plugin_name typTitle : String)
    (wt rv : Option String) : Except String (Option RemovalData) :=
  match (alGet m "removal_date").getD YamlVal.null with
  | YamlVal.null => Except.ok (some ⟨wt, rv, Option.none⟩)
  | YamlVal.datetime d => Except.ok (some ⟨wt, rv, some (DateOrStr.date d)⟩)
  | YamlVal.date d => Except.ok (some ⟨wt, rv, some (DateOrStr.date d)⟩)
  | YamlVal.str s => Except.ok (some ⟨wt, rv, some (DateOrStr.str s)⟩)
  | v => Except.error (typTitle ++ " for " ++ plugin_type ++ " " ++
      plugin_name ++ " must have its removal_date a string or date, got " ++
      yamlTypeName v)

/-- The `removal_version` check of `_load_removal_data` (lines 84-89). -/
def loadRemovalDataVersion (m : List (String × YamlVal))
    (plugin_type plugin_name typTitle : String) (wt : Option String) :
    Except String (Option RemovalData) :=
  match (alGet m "removal_version").getD YamlVal.null with
  | YamlVal.null => loadRemovalDataDate m plugin_type plugin_name typTitle
      wt Option.none
  | YamlVal.str s => loadRemovalDataDate m plugin_type plugin_name typTitle
      wt (some s)
  | v => Except.error (typTitle ++ " for " ++ plugin_type ++ " " ++
      plugin_name ++ " must have its removal_version a string, got " ++
      yamlTypeName v)

/-- The entry and `warning_text` checks of `_load_removal_data`
(lines 70-83). -/
def loadRemovalData (plugin_data : List (String × YamlVal))
    (plugin_type plugin_name typ typTitle : String) :
    Except String (Option RemovalData) :=
  match alGet plugin_data typ with
  | Option.none => Except.ok Option.none
  | some removal_data =>
    match removal_data with
    | YamlVal.map m =>
      match (alGet m "warning_text").getD YamlVal.null with
      | YamlVal.null => loadRemovalDataVersion m plugin_type plugin_name
          typTitle Option.none
      | YamlVal.str s => loadRemovalDataVersion m plugin_type plugin_name
          typTitle (some s)
      | v => Except.error (typTitle ++ " for " ++ plugin_type ++ " " ++
          plugin_name ++ " must have its warning_text a string, got " ++
          yamlTypeName v)
    | v => Except.error (typTitle ++ " for " ++ plugin_type ++ " " ++
        plugin_name ++ " must be a mapping, got " ++ yamlTypeName v)

/-- The `redirect` handling of `_parse_plugin_data` (lines 160-184). -/
def parsePluginDataRedirect (m : List (String × YamlVal)) (plugin_fqcn : String)
    (plugin_type plugin_name : String) (action_plugin : Option String)
    (deprecation tombstone : Option RemovalData) :
    Except String PluginRouting :=
  match alGet m "redirect" with
  | Option.none =>
    Except.ok
      { action_plugin := action_plugin
        redirect := Redirect.none
        redirect_chain := Option.none
        redirect_deprecations := Option.none
        redirect_tombstone := false
        redirect_dead_end := false
        redirect_error := Option.none
        deprecation := deprecation
        tombstone := tombstone }
  | some (YamlVal.str r) =>
    if r = plugin_fqcn then
      -- This is an obvious infinite loop
      Except.ok
        { action_plugin := action_plugin
          redirect := Redirect.ellipsis
          redirect_chain := some [plugin_fqcn, plugin_fqcn]
          redirect_deprecations :=
            match deprecation with
            | some d => some [(plugin_fqcn, d)]
            | Option.none => Option.none
          redirect_tombstone := false
          redirect_dead_end := false
          redirect_error := some "Detected circular redirect"
          deprecation := deprecation
          tombstone := tombstone }
    else
      Except.ok
        { action_plugin := action_plugin
          redirect := Redirect.str r
          redirect_chain := Option.none
          redirect_deprecations := Option.none
          redirect_tombstone := false
          redirect_dead_end := false
          redirect_error := Option.none
          deprecation := deprecation
          tombstone := tombstone }
  | some v => Except.error ("redirect for " ++ plugin_type ++ " " ++
      plugin_name ++ " must be a string, got " ++ yamlTypeName v)

/-- `_parse_plugin_data` (routing.py lines 107-184).  A self-redirect is
immediately marked as a cycle: `redirect = ...`,
`redirect_chain = (own, own)`, `redirect_error = "Detected circular
redirect"`, and the plugin's own deprecation (if any) seeds
`redirect_deprecations`. -/
def parsePluginData (plugin_data : YamlVal)
    (own_name real_plugin_type plugin_type plugin_name : String) :
    Except String PluginRouting :=
  if yamlFalsy plugin_data then
    Except.ok
      { action_plugin := Option.none
        redirect := Redirect.none
        redirect_chain := Option.none
        redirect_deprecations := Option.none
        redirect_tombstone := false
        redirect_dead_end := false
        redirect_error := Option.none
        deprecation := Option.none
        tombstone := Option.none }
  else
    match plugin_data with
    | YamlVal.map m =>
      match loadRemovalData m plugin_type plugin_name "deprecation"
          "Deprecation" with
      | Except.error e => Except.error e
      | Except.ok deprecation =>
        match loadRemovalData m plugin_type plugin_name "tombstone"
            "Tombstone" with
        | Except.error e => Except.error e
        | Except.ok tombstone =>
          let plugin_fqcn := own_name ++ "." ++ plugin_name
          let action_plugin? :=
            if real_plugin_type = "module" then alGet m "action_plugin"
            else Option.none
          match action_plugin? with
          | some (YamlVal.str ap) =>
            parsePluginDataRedirect m plugin_fqcn plugin_type plugin_name
              (some ap) deprecation tombstone
          | some v => Except.error ("action_plugin for " ++ plugin_type ++
              " " ++ plugin_name ++ " must be a string, got " ++ yamlTypeName v)
          | Option.none =>
            parsePluginDataRedirect m plugin_fqcn plugin_type plugin_name
              Option.none deprecation tombstone
    | v => Except.error ("Routing information for " ++ plugin_type ++ " " ++
        plugin_name ++ " must be a mapping, got " ++ yamlTypeName v)

/-- The 18 plugin-path environment variables neutralised by `_prepare_env`
(ansible_cli.py lines 162-183), in source order. -/
def pluginPathEnvVars : List (String × String) :=
  [("ANSIBLE_ACTION_PLUGINS", "/dev/null"),
   ("ANSIBLE_CACHE_PLUGINS", "/dev/null"),
   ("ANSIBLE_CALLBACK_PLUGINS", "/dev/null"),
   ("ANSIBLE_CLICONF_PLUGINS", "/dev/null"),
   ("ANSIBLE_CONNECTION_PLUGINS", "/dev/null"),
   ("ANSIBLE_FILTER_PLUGINS", "/dev/null"),
   ("ANSIBLE_HTTPAPI_PLUGINS", "/dev/null"),
   ("ANSIBLE_INVENTORY_PLUGINS", "/dev/null"),
   ("ANSIBLE_LOOKUP_PLUGINS", "/dev/null"),
   ("ANSIBLE_LIBRARY", "/dev/null"),
   ("ANSIBLE_MODULE_UTILS", "/dev/null"),
   ("ANSIBLE_NETCONF_PLUGINS", "/dev/null"),
   ("ANSIBLE_ROLES_PATH", "/dev/null"),
   ("ANSIBLE_STRATEGY_PLUGINS", "/dev/null"),
   ("ANSIBLE_TERMINAL_PLUGINS", "/dev/null"),
   ("ANSIBLE_TEST_PLUGINS", "/dev/null"),
   ("ANSIBLE_VARS_PLUGINS", "/dev/null"),
   ("ANSIBLE_DOC_FRAGMENT_PLUGINS", "/dev/null")]

/-- The module-level constant `_COLLECTIONS_PATH_ENV_VAR_COMPAT`
(ansible_cli.py line 28). -/
def collectionsPathEnvVarCompat : String := "ANSIBLE_COLLECTIONS_PATHS"

/-- `_prepare_env` (ansible_cli.py lines 155-188).  `environ` stands for
`os.environ`.  Note that line 187 of the source assigns to the literal key
`"_COLLECTIONS_PATH_ENV_VAR_COMPAT"` — the quoted *name* of the module
constant — rather than to the constant's value `"ANSIBLE_COLLECTIONS_PATHS"`;
the embedding reproduces that literal key. -/
def prepareEnv (environ : List (String × String))
    (collections_path : Option String)
    (only_pass_env_updates : Bool) (compat : Bool) :
    Option (List (String × String)) :=
  let env := if only_pass_env_updates then [] else environ
  let env := pluginPathEnvVars.foldl (fun e kv => alSet e kv.1 kv.2) env
  let env :=
    match collections_path with
    | some p =>
      if p.isEmpty then env  -- `if collections_path:` is false for ""
      else
        let env := alSet env "ANSIBLE_COLLECTIONS_PATH" p
        if compat then alSet env "_COLLECTIONS_PATH_ENV_VAR_COMPAT" p else env
    | Option.none => env
  if env.isEmpty && only_pass_env_updates then Option.none else some env


/-! ### Helper predicates and concrete catalogs used by the claims -/

/-- The blank record produced by the loader for an empty plugin entry. -/
def blankPR : PluginRouting :=
  ⟨Option.none, Redirect.none, Option.none, Option.none, false, false,
   Option.none, Option.none, Option.none⟩

/-- A freshly loaded record that only redirects to `r`. -/
def redirectTo (r : String) : PluginRouting :=
  { blankPR with redirect := Redirect.str r }

/-- A removal record carrying only a warning text, as in the unit tests. -/
def warnRecord (w : String) : RemovalData := ⟨some w, Option.none, Option.none⟩

/-- `true` iff every plugin record of the catalog satisfies `p`. -/
def allPlugins (cat : RoutingData) (p : PluginRouting → Bool) : Bool :=
  cat.all (fun ce => ce.2.plugin_data.all (fun te => te.2.all (fun ne => p ne.2)))

/-- Python `==` on string-keyed dicts: order-insensitive, same key set, equal
values (`eq` compares values). -/
def pyDictEq {α : Type} (eq : α → α → Bool) (a b : List (String × α)) : Bool :=
  (a.map (fun q => q.1)).all (fun k => (alGet b k).isSome) &&
  (b.map (fun q => q.1)).all (fun k =>
    match alGet a k, alGet b k with
    | some x, some y => eq x y
    | _, _ => false)

/-- Python `==` on two routing catalogs: dict equality at the collection,
plugin-type and plugin-name levels, and dataclass equality on the records. -/
def pyEqCat (a b : RoutingData) : Bool :=
  pyDictEq
    (fun cra crb =>
      pyDictEq (fun ma mb => pyDictEq (fun x y => decide (x = y)) ma mb)
        cra.plugin_data crb.plugin_data)
    a b

/-- A three-element redirect cycle `a → b → c → a` in one collection, with
deprecations `dA` on `a` and `dC` on `c` (the cycle of claim C1). -/
def catCycle3 (dA dC : RemovalData) : RoutingData :=
  [("foo.bar", ⟨[("module",
     [("a", { redirectTo "foo.bar.b" with deprecation := some dA }),
      ("b", redirectTo "foo.bar.c"),
      ("c", { redirectTo "foo.bar.a" with deprecation := some dC })])]⟩)]

/-- Expected resolution of node `a` of `catCycle3`. -/
def expCycle3A (dA dC : RemovalData) : PluginRouting :=
  { action_plugin := Option.none, redirect := Redirect.ellipsis,
    redirect_chain := some ["foo.bar.a", "foo.bar.b", "foo.bar.c", "foo.bar.a"],
    redirect_deprecations := some [("foo.bar.a", dA), ("foo.bar.c", dC)],
    redirect_tombstone := false, redirect_dead_end := false,
    redirect_error := some "Detected circular redirect",
    deprecation := some dA, tombstone := Option.none }

/-- Expected resolution of node `b` of `catCycle3`. -/
def expCycle3B (dA dC : RemovalData) : PluginRouting :=
  { expCycle3A dA dC with
    redirect_chain := some ["foo.bar.b", "foo.bar.c", "foo.bar.a", "foo.bar.b"]
    redirect_deprecations := some [("foo.bar.c", dC), ("foo.bar.a", dA)]
    deprecation := Option.none }

/-- Expected resolution of node `c` of `catCycle3`. -/
def expCycle3C (dA dC : RemovalData) : PluginRouting :=
  { expCycle3A dA dC with
    redirect_chain := some ["foo.bar.c", "foo.bar.a", "foo.bar.b", "foo.bar.c"]
    redirect_deprecations := some [("foo.bar.c", dC), ("foo.bar.a", dA)]
    deprecation := some dC }

/-- Expected resolved catalog for `catCycle3`. -/
def resCycle3 (dA dC : RemovalData) : RoutingData :=
  [("foo.bar", ⟨[("module",
     [("a", expCycle3A dA dC),
      ("b", expCycle3B dA dC),
      ("c", expCycle3C dA dC)])]⟩)]

/-- A redirect chain ending in a tombstoned plugin (spec scenario E). -/
def catTombChain : RoutingData :=
  [("foo.bar", ⟨[("lookup",
     [("dead_chain_1", redirectTo "foo.bar.dead_chain_2"),
      ("dead_chain_2", redirectTo "foo.bar.dead_chain_3"),
      ("dead_chain_3",
        { blankPR with tombstone := some (warnRecord "this is dead") })])]⟩)]

/-- Expected resolution of `dead_chain_1`: the chain stops at the hop before
the tombstoned target, which is instead recorded in `redirect` and in
`redirect_deprecations`. -/
def expTombChain1 : PluginRouting :=
  { blankPR with
    redirect := Redirect.str "foo.bar.dead_chain_3"
    redirect_chain := some ["foo.bar.dead_chain_1", "foo.bar.dead_chain_2"]
    redirect_deprecations := some [("foo.bar.dead_chain_3", warnRecord "this is dead")]
    redirect_tombstone := true }

/-- Expected resolution of `dead_chain_2`. -/
def expTombChain2 : PluginRouting :=
  { expTombChain1 with redirect_chain := some ["foo.bar.dead_chain_2"] }

/-- Expected resolved catalog for `catTombChain`. -/
def resTombChain : RoutingData :=
  [("foo.bar", ⟨[("lookup",
     [("dead_chain_1", expTombChain1),
      ("dead_chain_2", expTombChain2),
      ("dead_chain_3",
        { blankPR with tombstone := some (warnRecord "this is dead") })])]⟩)]

/-- A redirect chain ending in a non-FQCN target (spec scenario F). -/
def catBrokenChain : RoutingData :=
  [("foo.bar", ⟨[("lookup",
     [("broken_chain_1", redirectTo "foo.bar.broken_chain_2"),
      ("broken_chain_2", redirectTo "this-is-not-a-fqcn")])]⟩)]

/-- Expected resolution of `broken_chain_1`: dead end, and the non-FQCN target
is not an element of the chain. -/
def expBrokenChain1 : PluginRouting :=
  { blankPR with
    redirect := Redirect.str "this-is-not-a-fqcn"
    redirect_chain := some ["foo.bar.broken_chain_1", "foo.bar.broken_chain_2"]
    redirect_dead_end := true
    redirect_error := some "Found redirect to non-FQCN this-is-not-a-fqcn" }

/-- Expected resolution of `broken_chain_2`. -/
def expBrokenChain2 : PluginRouting :=
  { expBrokenChain1 with redirect_chain := some ["foo.bar.broken_chain_2"] }

/-- Expected resolved catalog for `catBrokenChain`. -/
def resBrokenChain : RoutingData :=
  [("foo.bar", ⟨[("lookup",
     [("broken_chain_1", expBrokenChain1),
      ("broken_chain_2", expBrokenChain2)])]⟩)]

/-- A redirect chain leaving the catalog through an unknown collection. -/
def catLeaveChain : RoutingData :=
  [("foo.bar", ⟨[("module",
     [("leave_chain_1", redirectTo "foo.bar.leave_chain_2"),
      ("leave_chain_2", redirectTo "foo.bar.leave_chain_3"),
      ("leave_chain_3", redirectTo "outside.here.meh")])]⟩)]

/-- Expected resolution of `leave_chain_1`: dead end, and the unknown-bundle
FQN is the last chain element. -/
def expLeaveChain1 : PluginRouting :=
  { blankPR with
    redirect := Redirect.str "outside.here.meh"
    redirect_chain := some ["foo.bar.leave_chain_1", "foo.bar.leave_chain_2",
      "foo.bar.leave_chain_3", "outside.here.meh"]
    redirect_dead_end := true
    redirect_error := some "Found redirect to unknown collection outside.here" }

/-- Expected resolution of `leave_chain_2`. -/
def expLeaveChain2 : PluginRouting :=
  { expLeaveChain1 with
    redirect_chain := some ["foo.bar.leave_chain_2", "foo.bar.leave_chain_3",
      "outside.here.meh"] }

/-- Expected resolution of `leave_chain_3`. -/
def expLeaveChain3 : PluginRouting :=
  { expLeaveChain1 with
    redirect_chain := some ["foo.bar.leave_chain_3", "outside.here.meh"] }

/-- Expected resolved catalog for `catLeaveChain`. -/
def resLeaveChain : RoutingData :=
  [("foo.bar", ⟨[("module",
     [("leave_chain_1", expLeaveChain1),
      ("leave_chain_2", expLeaveChain2),
      ("leave_chain_3", expLeaveChain3)])]⟩)]

/-- A single plugin whose redirect target is not an FQCN. -/
def catNonFqcn : RoutingData :=
  [("foo.bar", ⟨[("module", [("p", redirectTo "bad")])]⟩)]

/-- Expected resolution of `p` in `catNonFqcn`. -/
def expNonFqcn : PluginRouting :=
  { blankPR with
    redirect := Redirect.str "bad"
    redirect_chain := some ["foo.bar.p"]
    redirect_dead_end := true
    redirect_error := some "Found redirect to non-FQCN bad" }

/-- Expected resolved catalog for `catNonFqcn`. -/
def resNonFqcn : RoutingData :=
  [("foo.bar", ⟨[("module", [("p", expNonFqcn)])]⟩)]

/-- A linear chain `a → b → c → d` with terminal `d`, plugin names listed in
the order `a, b, c, d`. -/
def catChainOrderA : RoutingData :=
  [("foo.bar", ⟨[("module",
     [("a", redirectTo "foo.bar.b"), ("b", redirectTo "foo.bar.c"),
      ("c", redirectTo "foo.bar.d"), ("d", blankPR)])]⟩)]

/-- The same catalog as `catChainOrderA` (equal as Python dicts) but with the
plugin names listed in the order `b, a, c, d`. -/
def catChainOrderB : RoutingData :=
  [("foo.bar", ⟨[("module",
     [("b", redirectTo "foo.bar.c"), ("a", redirectTo "foo.bar.b"),
      ("c", redirectTo "foo.bar.d"), ("d", blankPR)])]⟩)]

/-! ### Claims settled on concrete catalogs -/

/-- Claim C1: for the resolved redirect cycle `[a, b, c]` entered at `a`, each
cycle node's `redirect_chain` is the rotation of the cycle starting at that
node with its own FQN repeated at the end, and its `redirect_deprecations` is
the cycle's deprecation list rotated so entries at or after that node's
position come first; with deprecations `dA` on `a` and `dC` on `c`:
`a` gets `((a,dA),(c,dC))` and both `b` and `c` get `((c,dC),(a,dA))`. -/
theorem claim_C1 (dA dC : RemovalData) :
    completeRedirects (catCycle3 dA dC) = Except.ok (resCycle3 dA dC) := rfl

/-- Claim C2, counterexample: for the plugin `p` of `catNonFqcn`, whose
original redirect is the string `"bad"`, after `complete_redirects` neither
disjunct of the claim holds: the chain's last element (`p`'s own FQN) does not
correspond to `p.redirect` (the non-FQN `"bad"` never enters the chain), and
the record is not a cycle. -/
theorem claim_C2_counterexample :
    completeRedirects catNonFqcn = Except.ok resNonFqcn ∧
    getPlugin resNonFqcn "foo.bar" "module" "p" = some expNonFqcn ∧
    (expNonFqcn.redirect = Redirect.str "bad" ∧
     expNonFqcn.redirect_chain = some ["foo.bar.p"]) ∧
    ¬ ((expNonFqcn.redirect_chain.getD [] ≠ [] ∧
        (expNonFqcn.redirect_chain.getD []).head? = some "foo.bar.p" ∧
        Redirect.str (((expNonFqcn.redirect_chain.getD []).getLast?).getD "") =
          expNonFqcn.redirect) ∨
       (expNonFqcn.redirect = Redirect.ellipsis ∧
        ((expNonFqcn.redirect_chain.getD []).count "foo.bar.p") = 2)) := by
  refine ⟨rfl, rfl, ⟨rfl, rfl⟩, ?_⟩
  decide

/-- Claim C3, counterexample: in the chain `dead_chain_1 → dead_chain_2 →
dead_chain_3` where `dead_chain_3` is tombstoned, the start node gets exactly
the claimed `redirect_deprecations`, `redirect_tombstone` and absent
`redirect_error`, but the chain's last element is `dead_chain_2`, not the
tombstoned target's FQN as the claim states. -/
theorem claim_C3_counterexample :
    completeRedirects catTombChain = Except.ok resTombChain ∧
    getPlugin resTombChain "foo.bar" "lookup" "dead_chain_1" = some expTombChain1 ∧
    (expTombChain1.redirect_deprecations =
       some [("foo.bar.dead_chain_3", warnRecord "this is dead")] ∧
     expTombChain1.redirect_tombstone = true ∧
     expTombChain1.redirect_error = Option.none) ∧
    (expTombChain1.redirect_chain.getD []).getLast? = some "foo.bar.dead_chain_2" ∧
    ¬ (expTombChain1.redirect_chain.getD []).getLast? =
        some "foo.bar.dead_chain_3" := by
  refine ⟨rfl, rfl, ⟨rfl, rfl, rfl⟩, rfl, ?_⟩
  decide

/-- Claim C3, amended: when a chain first reaches a tombstoned target `T`,
the start node gets `redirect_deprecations == ((T, T.tombstone),)`,
`redirect_tombstone == true`, `redirect_error` absent, and `redirect == T`'s
FQN, while `redirect_chain` ends at the last hop before `T` (the tombstoned
FQN is not appended to the chain). -/
theorem claim_C3_amended :
    completeRedirects catTombChain = Except.ok resTombChain ∧
    getPlugin resTombChain "foo.bar" "lookup" "dead_chain_1" = some expTombChain1 ∧
    expTombChain1.redirect_deprecations =
      some [("foo.bar.dead_chain_3", warnRecord "this is dead")] ∧
    expTombChain1.redirect_tombstone = true ∧
    expTombChain1.redirect_error = Option.none ∧
    expTombChain1.redirect = Redirect.str "foo.bar.dead_chain_3" ∧
    expTombChain1.redirect_chain =
      some ["foo.bar.dead_chain_1", "foo.bar.dead_chain_2"] :=
  ⟨rfl, rfl, rfl, rfl, rfl, rfl, rfl⟩

/-- Claim C4: a non-FQCN redirect target never appears as an element of any
`redirect_chain` (checked over every record of the resolved catalog), while an
FQN naming an absent collection does appear as the last chain element; in both
cases every node on the path is marked `redirect_dead_end` with a
`redirect_error` naming the offending target. -/
theorem claim_C4 :
    (completeRedirects catBrokenChain = Except.ok resBrokenChain ∧
     allPlugins resBrokenChain
       (fun r => !((r.redirect_chain.getD []).contains "this-is-not-a-fqcn")) =
         true ∧
     getPlugin resBrokenChain "foo.bar" "lookup" "broken_chain_1" =
       some expBrokenChain1 ∧
     getPlugin resBrokenChain "foo.bar" "lookup" "broken_chain_2" =
       some expBrokenChain2 ∧
     expBrokenChain1.redirect_dead_end = true ∧
     expBrokenChain2.redirect_dead_end = true ∧
     expBrokenChain1.redirect_error =
       some "Found redirect to non-FQCN this-is-not-a-fqcn" ∧
     expBrokenChain2.redirect_error =
       some "Found redirect to non-FQCN this-is-not-a-fqcn") ∧
    (completeRedirects catLeaveChain = Except.ok resLeaveChain ∧
     allPlugins resLeaveChain
       (fun r => r.redirect_chain.isNone ||
         ((r.redirect_chain.getD []).getLast? = some "outside.here.meh" &&
          r.redirect_dead_end &&
          r.redirect_error =
            some "Found redirect to unknown collection outside.here")) = true) := by
  refine ⟨⟨rfl, ?_, rfl, rfl, rfl, rfl, rfl, rfl⟩, rfl, ?_⟩ <;> decide

/-- Claim C6: parsing a plugin entry whose redirect equals its own FQN yields
`redirect == CYCLE_MARKER` (the ellipsis), `redirect_chain == (own, own)`,
`redirect_error == "Detected circular redirect"`, with
`redirect_deprecations == ((own, deprecation),)` exactly when the plugin's own
deprecation is present, and the record is already complete: `_complete_redirect`
returns it unchanged for any catalog, without walking. -/
theorem claim_C6 (w : String) :
    parsePluginData (YamlVal.map [("redirect", YamlVal.str "foo.bar.me")])
        "foo.bar" "module" "modules" "me" =
      Except.ok
        { blankPR with
          redirect := Redirect.ellipsis
          redirect_chain := some ["foo.bar.me", "foo.bar.me"]
          redirect_error := some "Detected circular redirect" } ∧
    parsePluginData
        (YamlVal.map [("redirect", YamlVal.str "foo.bar.me"),
          ("deprecation", YamlVal.map [("warning_text", YamlVal.str w)])])
        "foo.bar" "module" "modules" "me" =
      Except.ok
        { blankPR with
          redirect := Redirect.ellipsis
          redirect_chain := some ["foo.bar.me", "foo.bar.me"]
          redirect_deprecations := some [("foo.bar.me", warnRecord w)]
          redirect_error := some "Detected circular redirect"
          deprecation := some (warnRecord w) } ∧
    (∀ (cat : RoutingData) (cn t n : String),
      completeRedirect
        { blankPR with
          redirect := Redirect.ellipsis
          redirect_chain := some ["foo.bar.me", "foo.bar.me"]
          redirect_error := some "Detected circular redirect" } cat cn t n =
        Except.ok (cat,
          { blankPR with
            redirect := Redirect.ellipsis
            redirect_chain := some ["foo.bar.me", "foo.bar.me"]
            redirect_error := some "Detected circular redirect" })) :=
  ⟨rfl, rfl, fun _ _ _ _ => rfl⟩

/-- Claim C7, counterexample: `catChainOrderA` and `catChainOrderB` are equal
as Python dict structures (same mapping, different plugin-name iteration
order), yet `complete_redirects` produces observably different resolved
catalogs: visiting `b` before `a` leaves `a` and `b` with the shortcut chains
`(a, b, d)` and `(b, d)` instead of `(a, b, c, d)` and `(b, c, d)`. -/
theorem claim_C7_counterexample :
    pyEqCat catChainOrderA catChainOrderB = true ∧
    (match completeRedirects catChainOrderA, completeRedirects catChainOrderB with
     | Except.ok r1, Except.ok r2 =>
       ((getPlugin r1 "foo.bar" "module" "a").map
           (fun r => r.redirect_chain) =
         some (some ["foo.bar.a", "foo.bar.b", "foo.bar.c", "foo.bar.d"])) ∧
       ((getPlugin r2 "foo.bar" "module" "a").map
           (fun r => r.redirect_chain) =
         some (some ["foo.bar.a", "foo.bar.b", "foo.bar.d"])) ∧
       pyEqCat r1 r2 = false
     | _, _ => False) := by
  exact ⟨by decide, rfl, rfl, by decide⟩

/-- Claim C10: calling `complete_redirects_for_collection` with a collection
name that is not a key of the catalog returns without error and leaves the
catalog unchanged. -/
theorem claim_C10 (rd : RoutingData) (cn : String)
    (h : alGet rd cn = Option.none) :
    completeRedirectsForCollection rd cn = Except.ok rd := by
  unfold completeRedirectsForCollection
  rw [h]

/-- Witness for claim C10 at a concrete catalog and collection name. -/
theorem claim_C10_witness :
    completeRedirectsForCollection catTombChain "does-not-exist" =
      Except.ok catTombChain :=
  claim_C10 catTombChain "does-not-exist" (by decide)

/-- Claim C8: with a `collections_path` supplied, the prepared child
environment does contain `ANSIBLE_COLLECTIONS_PATH`, but in compat mode the
source (ansible_cli.py line 187) assigns the path to the literal key
`"_COLLECTIONS_PATH_ENV_VAR_COMPAT"` — the quoted name of the module constant
— so `ANSIBLE_COLLECTIONS_PATHS` (the constant's value) is absent from the
environment, contradicting the constant declared on line 28 for this
purpose. -/
theorem claim_C8_bug :
    collectionsPathEnvVarCompat = "ANSIBLE_COLLECTIONS_PATHS" ∧
    ((prepareEnv [] (some "/some/path") true true).map (fun env =>
      (alGet env "ANSIBLE_COLLECTIONS_PATH",
       alGet env collectionsPathEnvVarCompat,
       alGet env "_COLLECTIONS_PATH_ENV_VAR_COMPAT"))) =
      some (some "/some/path", Option.none, some "/some/path") ∧
    ((prepareEnv [] (some "/some/path") true false).map (fun env =>
      alGet env "ANSIBLE_COLLECTIONS_PATH")) = some (some "/some/path") :=
  ⟨rfl, rfl, rfl⟩

/-! ### Association-list lemmas -/

theorem alGet_alSet {α : Type} (l : List (String × α)) (k : String) (v : α)
    (k' : String) :
    alGet (alSet l k v) k' = if k = k' then some v else alGet l k' := by
  induction l with
  | nil => simp [alGet, alSet]
  | cons hd tl ih =>
    obtain ⟨a, b⟩ := hd
    by_cases hak : a = k
    · subst hak
      by_cases hak' : a = k' <;> simp [alGet, alSet, hak']
    · by_cases hak' : a = k'
      · subst hak'
        simp [alGet, alSet, hak, ih]
        rw [if_neg (fun h => hak h.symm)]
      · simp [alGet, alSet, hak, hak', ih]

theorem alSet_self {α : Type} (l : List (String × α)) (k : String) (v : α)
    (h : alGet l k = some v) : alSet l k v = l := by
  induction l with
  | nil => simp [alGet] at h
  | cons hd tl ih =>
    obtain ⟨a, b⟩ := hd
    by_cases hak : a = k
    · subst hak
      simp [alGet] at h
      simp [alSet, h]
    · simp [alGet, hak] at h
      simp [alSet, hak, ih h]

theorem alGet_mem {α : Type} (l : List (String × α)) (k : String) (v : α)
    (h : alGet l k = some v) : (k, v) ∈ l := by
  induction l with
  | nil => simp [alGet] at h
  | cons hd tl ih =>
    obtain ⟨a, b⟩ := hd
    by_cases hak : a = k
    · subst hak
      simp [alGet] at h
      simp [h]
    · simp [alGet, hak] at h
      exact List.mem_cons_of_mem _ (ih h)

theorem alGet_map {α β : Type} (f : α → β) (l : List (String × α)) (k : String) :
    alGet (l.map (fun p => (p.1, f p.2))) k = (alGet l k).map f := by
  induction l with
  | nil => simp [alGet]
  | cons hd tl ih =>
    obtain ⟨a, b⟩ := hd
    by_cases hak : a = k <;> simp [alGet, hak, ih]

theorem map_alSet {α β : Type} (f : String × α → β) (l : List (String × α))
    (k : String) (v : α)
    (hcong : ∀ w, alGet l k = some w → f (k, v) = f (k, w))
    (hmem : (alGet l k).isSome) :
    (alSet l k v).map f = l.map f := by
  induction l with
  | nil => simp [alGet] at hmem
  | cons hd tl ih =>
    obtain ⟨a, b⟩ := hd
    by_cases hak : a = k
    · subst hak
      have hb : alGet ((a, b) :: tl) a = some b := by simp [alGet]
      simp [alSet, List.map]
      exact hcong b hb
    · simp [alGet, hak] at hmem
      have hcong' : ∀ w, alGet tl k = some w → f (k, v) = f (k, w) := by
        intro w hw
        exact hcong w (by simp [alGet, hak, hw])
      simp [alSet, hak, List.map, ih hcong' hmem]


/-! ### Catalog shape and write-effect lemmas -/

/-- The key structure of a catalog: collection names, plugin types per
collection, plugin names per type, in order. -/
def catShape (a : RoutingData) : List (String × List (String × List String)) :=
  a.map (fun ce => (ce.1,
    ce.2.plugin_data.map (fun te => (te.1, te.2.map (fun ne => ne.1)))))

/-- `true` iff the record's resolution is complete: `redirect` is absent or
the cycle marker, or `redirect_chain` is populated (the early-return guard of
`_complete_redirect`). -/
def resolvedDone (r : PluginRouting) : Bool :=
  match r.redirect, r.redirect_chain with
  | Redirect.none, _ => true
  | Redirect.ellipsis, _ => true
  | Redirect.str _, some _ => true
  | Redirect.str _, Option.none => false

/-- Every record stored by the resolver's rewrites at path `(c, t, n)` has a
chain that starts with the node's own FQN and a redirect that is either the
cycle marker or a target string. -/
def writtenOk (c n : String) (r : PluginRouting) : Prop :=
  ∃ l, r.redirect_chain = some l ∧ l.head? = some (c ++ "." ++ n) ∧
    r.redirect ≠ Redirect.none

theorem resolvedDone_of_writtenOk {c n : String} {r : PluginRouting}
    (h : writtenOk c n r) : resolvedDone r = true := by
  obtain ⟨l, hl, _, hr⟩ := h
  unfold resolvedDone
  cases hred : r.redirect <;> simp_all

/-- Presence of plugin paths only grows along the resolver's writes. -/
def PresMono (a b : RoutingData) : Prop :=
  ∀ c t n, (getPlugin a c t n).isSome → (getPlugin b c t n).isSome

/-- Every record of `b` is either the record `a` already stored at the same
path, or a record written by the resolver (whose chain starts with the path's
own FQN). -/
def StepRel (a b : RoutingData) : Prop :=
  ∀ c t n r, getPlugin b c t n = some r →
    getPlugin a c t n = some r ∨ writtenOk c n r

theorem presMono_refl (a : RoutingData) : PresMono a a := fun _ _ _ h => h

theorem presMono_trans {a b c : RoutingData} (h1 : PresMono a b)
    (h2 : PresMono b c) : PresMono a c :=
  fun x y z h => h2 x y z (h1 x y z h)

theorem stepRel_refl (a : RoutingData) : StepRel a a := fun _ _ _ _ h => Or.inl h

theorem stepRel_trans {a b c : RoutingData} (h1 : StepRel a b)
    (h2 : StepRel b c) : StepRel a c := by
  intro x y z r h
  rcases h2 x y z r h with h' | h'
  · exact h1 x y z r h'
  · exact Or.inr h'

theorem setPlugin_eq_of_none (cat : RoutingData) (c t n : String)
    (v : PluginRouting) (hc : alGet cat c = Option.none) :
    setPlugin cat c t n v = cat := by
  simp [setPlugin, hc]

theorem setPlugin_eq_of_none2 (cat : RoutingData) (c t n : String)
    (v : PluginRouting) (cr : CollectionRouting) (hc : alGet cat c = some cr)
    (ht : alGet cr.plugin_data t = Option.none) :
    setPlugin cat c t n v = cat := by
  simp [setPlugin, hc, ht]

theorem setPlugin_eq_of_some (cat : RoutingData) (c t n : String)
    (v : PluginRouting) (cr : CollectionRouting)
    (m : List (String × PluginRouting)) (hc : alGet cat c = some cr)
    (ht : alGet cr.plugin_data t = some m) :
    setPlugin cat c t n v = alSet cat c ⟨alSet cr.plugin_data t (alSet m n v)⟩ := by
  simp [setPlugin, hc, ht]

theorem writeOwner_none (cat : RoutingData) (t pn : String) (v : PluginRouting) :
    writeOwner cat t Option.none pn v = cat := rfl

theorem writeOwner_some_eq (cat : RoutingData) (t : String) (c pn : String)
    (v : PluginRouting) (cr : CollectionRouting)
    (m : List (String × PluginRouting)) (hc : alGet cat c = some cr)
    (ht : alGet cr.plugin_data t = some m) (hm : ¬ m.isEmpty) :
    writeOwner cat t (some c) pn v =
      alSet cat c ⟨alSet cr.plugin_data t (alSet m pn v)⟩ := by
  simp [writeOwner, hc, ht, hm]

theorem writeOwner_some_noop (cat : RoutingData) (t : String) (c pn : String)
    (v : PluginRouting)
    (h : ∀ cr, alGet cat c = some cr →
      ∀ m, alGet cr.plugin_data t = some m → m.isEmpty) :
    writeOwner cat t (some c) pn v = cat := by
  cases hc : alGet cat c with
  | none => simp [writeOwner, hc]
  | some cr =>
    cases ht : alGet cr.plugin_data t with
    | none => simp [writeOwner, hc, ht]
    | some m => simp [writeOwner, hc, ht, h cr hc m ht]

theorem getPlugin_eq (cat : RoutingData) (c t n : String) (cr : CollectionRouting)
    (m : List (String × PluginRouting)) (hc : alGet cat c = some cr)
    (ht : alGet cr.plugin_data t = some m) :
    getPlugin cat c t n = alGet m n := by
  simp [getPlugin, hc, ht]

theorem getPlugin_alSet_nested (cat : RoutingData) (c t n : String)
    (v : PluginRouting) (cr : CollectionRouting)
    (m : List (String × PluginRouting)) (hc : alGet cat c = some cr)
    (ht : alGet cr.plugin_data t = some m) (c' t' n' : String) :
    getPlugin (alSet cat c ⟨alSet cr.plugin_data t (alSet m n v)⟩) c' t' n' =
      if c = c' ∧ t = t' ∧ n = n' then some v else getPlugin cat c' t' n' := by
  by_cases hcc : c = c'
  · subst hcc
    by_cases htt : t = t'
    · subst htt
      by_cases hnn : n = n'
      · subst hnn
        simp [getPlugin, alGet_alSet, ht]
      · simp [getPlugin, alGet_alSet, hc, ht, hnn]
    · simp [getPlugin, alGet_alSet, hc, htt]
  · simp [getPlugin, alGet_alSet, hcc]

theorem getPlugin_setPlugin_or (cat : RoutingData) (c t n : String)
    (v : PluginRouting) (c' t' n' : String) :
    getPlugin (setPlugin cat c t n v) c' t' n' = getPlugin cat c' t' n' ∨
    (c = c' ∧ t = t' ∧ n = n' ∧
      getPlugin (setPlugin cat c t n v) c' t' n' = some v) := by
  cases hc : alGet cat c with
  | none => rw [setPlugin_eq_of_none cat c t n v hc]; exact Or.inl rfl
  | some cr =>
    cases ht : alGet cr.plugin_data t with
    | none => rw [setPlugin_eq_of_none2 cat c t n v cr hc ht]; exact Or.inl rfl
    | some m =>
      rw [setPlugin_eq_of_some cat c t n v cr m hc ht,
        getPlugin_alSet_nested cat c t n v cr m hc ht]
      by_cases hall : c = c' ∧ t = t' ∧ n = n'
      · obtain ⟨h1, h2, h3⟩ := hall
        exact Or.inr ⟨h1, h2, h3, by simp [h1, h2, h3]⟩
      · simp [hall]

theorem getPlugin_setPlugin_self (cat : RoutingData) (c t n : String)
    (v : PluginRouting) (h : (getPlugin cat c t n).isSome) :
    getPlugin (setPlugin cat c t n v) c t n = some v := by
  cases hc : alGet cat c with
  | none => simp [getPlugin, hc] at h
  | some cr =>
    cases ht : alGet cr.plugin_data t with
    | none => simp [getPlugin, hc, ht] at h
    | some m =>
      rw [setPlugin_eq_of_some cat c t n v cr m hc ht,
        getPlugin_alSet_nested cat c t n v cr m hc ht]
      simp

theorem getPlugin_setPlugin_ne (cat : RoutingData) (c t n : String)
    (v : PluginRouting) (c' t' n' : String)
    (hne : ¬ (c = c' ∧ t = t' ∧ n = n')) :
    getPlugin (setPlugin cat c t n v) c' t' n' = getPlugin cat c' t' n' := by
  cases hc : alGet cat c with
  | none => rw [setPlugin_eq_of_none cat c t n v hc]
  | some cr =>
    cases ht : alGet cr.plugin_data t with
    | none => rw [setPlugin_eq_of_none2 cat c t n v cr hc ht]
    | some m =>
      rw [setPlugin_eq_of_some cat c t n v cr m hc ht,
        getPlugin_alSet_nested cat c t n v cr m hc ht]
      simp [hne]

theorem getPlugin_writeOwner_or (cat : RoutingData) (t : String)
    (ow : Option String) (pn : String) (v : PluginRouting) (c' t' n' : String) :
    getPlugin (writeOwner cat t ow pn v) c' t' n' = getPlugin cat c' t' n' ∨
    (ow = some c' ∧ t = t' ∧ pn = n' ∧
      getPlugin (writeOwner cat t ow pn v) c' t' n' = some v) := by
  cases ow with
  | none => exact Or.inl rfl
  | some c =>
    cases hc : alGet cat c with
    | none => left; simp [writeOwner, hc]
    | some cr =>
      cases ht : alGet cr.plugin_data t with
      | none => left; simp [writeOwner, hc, ht]
      | some m =>
        by_cases hemp : m.isEmpty
        · left; simp [writeOwner, hc, ht, hemp]
        · rw [writeOwner_some_eq cat t c pn v cr m hc ht hemp,
            getPlugin_alSet_nested cat c t pn v cr m hc ht]
          by_cases hall : c = c' ∧ t = t' ∧ pn = n'
          · obtain ⟨h1, h2, h3⟩ := hall
            exact Or.inr ⟨by rw [h1], h2, h3, by simp [h1, h2, h3]⟩
          · simp [hall]

theorem getPlugin_writeOwner_ne (cat : RoutingData) (t : String)
    (ow : Option String) (pn : String) (v : PluginRouting) (c' t' n' : String)
    (hne : ∀ c, ow = some c → ¬ (c = c' ∧ t = t' ∧ pn = n')) :
    getPlugin (writeOwner cat t ow pn v) c' t' n' = getPlugin cat c' t' n' := by
  rcases getPlugin_writeOwner_or cat t ow pn v c' t' n' with h | ⟨h1, h2, h3, _⟩
  · exact h
  · exact absurd ⟨rfl, h2, h3⟩ (hne c' h1)

theorem presMono_setPlugin (cat : RoutingData) (c t n : String)
    (v : PluginRouting) : PresMono cat (setPlugin cat c t n v) := by
  intro x y z h
  rcases getPlugin_setPlugin_or cat c t n v x y z with heq | ⟨_, _, _, heq⟩
  · rw [heq]; exact h
  · rw [heq]; rfl

theorem presMono_writeOwner (cat : RoutingData) (t : String)
    (ow : Option String) (pn : String) (v : PluginRouting) :
    PresMono cat (writeOwner cat t ow pn v) := by
  intro x y z h
  rcases getPlugin_writeOwner_or cat t ow pn v x y z with heq | ⟨_, _, _, heq⟩
  · rw [heq]; exact h
  · rw [heq]; rfl

theorem catShape_alSet_nested (cat : RoutingData) (c t n : String)
    (v : PluginRouting) (cr : CollectionRouting)
    (m : List (String × PluginRouting)) (hc : alGet cat c = some cr)
    (ht : alGet cr.plugin_data t = some m) (hn : (alGet m n).isSome) :
    catShape (alSet cat c ⟨alSet cr.plugin_data t (alSet m n v)⟩) =
      catShape cat := by
  unfold catShape
  refine map_alSet _ cat c _ ?_ (by simp [hc])
  intro w hw
  rw [hc] at hw
  cases hw
  simp only
  refine congrArg _ ?_
  refine map_alSet _ cr.plugin_data t _ ?_ (by simp [ht])
  intro w' hw'
  rw [ht] at hw'
  cases hw'
  simp only
  refine congrArg _ ?_
  exact map_alSet _ m n _ (fun _ _ => rfl) hn

theorem catShape_setPlugin (cat : RoutingData) (c t n : String)
    (v : PluginRouting) (h : (getPlugin cat c t n).isSome) :
    catShape (setPlugin cat c t n v) = catShape cat := by
  cases hc : alGet cat c with
  | none => rw [setPlugin_eq_of_none cat c t n v hc]
  | some cr =>
    cases ht : alGet cr.plugin_data t with
    | none => rw [setPlugin_eq_of_none2 cat c t n v cr hc ht]
    | some m =>
      rw [setPlugin_eq_of_some cat c t n v cr m hc ht]
      refine catShape_alSet_nested cat c t n v cr m hc ht ?_
      rw [getPlugin_eq cat c t n cr m hc ht] at h
      exact h

theorem catShape_writeOwner (cat : RoutingData) (t : String)
    (ow : Option String) (pn : String) (v : PluginRouting)
    (h : ∀ c', ow = some c' → (getPlugin cat c' t pn).isSome) :
    catShape (writeOwner cat t ow pn v) = catShape cat := by
  cases ow with
  | none => rfl
  | some c =>
    have hp := h c rfl
    cases hc : alGet cat c with
    | none => simp [writeOwner, hc]
    | some cr =>
      cases ht : alGet cr.plugin_data t with
      | none => simp [writeOwner, hc, ht]
      | some m =>
        by_cases hemp : m.isEmpty
        · simp [writeOwner, hc, ht, hemp]
        · rw [writeOwner_some_eq cat t c pn v cr m hc ht hemp]
          refine catShape_alSet_nested cat c t pn v cr m hc ht ?_
          rw [getPlugin_eq cat c t pn cr m hc ht] at hp
          exact hp

theorem alGet_catShape (a : RoutingData) (c : String) :
    alGet (catShape a) c = (alGet a c).map
      (fun cr => cr.plugin_data.map
        (fun te => (te.1, te.2.map (fun ne => ne.1)))) := by
  induction a with
  | nil => rfl
  | cons hd tl ih =>
    obtain ⟨k, cr⟩ := hd
    by_cases hk : k = c
    · simp [catShape, alGet, hk]
    · simpa [catShape, alGet, hk] using ih

theorem alGet_isSome_of_keys_eq {α β : Type} (ma : List (String × α))
    (mb : List (String × β)) (n : String)
    (hkeys : ma.map (fun p => p.1) = mb.map (fun p => p.1)) :
    (alGet ma n).isSome → (alGet mb n).isSome := by
  induction ma generalizing mb with
  | nil => intro h; simp [alGet] at h
  | cons hd tl ih =>
    intro h
    obtain ⟨a, x⟩ := hd
    cases mb with
    | nil => simp at hkeys
    | cons hd' tl' =>
      obtain ⟨b, y⟩ := hd'
      simp only [List.map, List.cons.injEq] at hkeys
      obtain ⟨hab, htl⟩ := hkeys
      subst hab
      by_cases han : a = n
      · simp [alGet, han]
      · simp only [alGet, han, if_false] at h ⊢
        exact ih tl' htl h

theorem getPlugin_isSome_of_catShape_eq {a b : RoutingData}
    (h : catShape a = catShape b) (c t n : String)
    (ha : (getPlugin a c t n).isSome) : (getPlugin b c t n).isSome := by
  have hsa : alGet (catShape a) c = alGet (catShape b) c := by rw [h]
  rw [alGet_catShape, alGet_catShape] at hsa
  cases hac : alGet a c with
  | none => simp [getPlugin, hac] at ha
  | some cra =>
    rw [hac] at hsa
    cases hbc : alGet b c with
    | none => rw [hbc] at hsa; simp at hsa
    | some crb =>
      rw [hbc] at hsa
      simp only [Option.map_some'] at hsa
      have hsa2 := Option.some_inj.mp hsa
      have hsa3 : alGet (cra.plugin_data.map
          (fun te => (te.1, te.2.map (fun ne => ne.1)))) t =
          alGet (crb.plugin_data.map
          (fun te => (te.1, te.2.map (fun ne => ne.1)))) t := by rw [hsa2]
      rw [alGet_map, alGet_map] at hsa3
      cases hat : alGet cra.plugin_data t with
      | none => simp [getPlugin, hac, hat] at ha
      | some ma =>
        rw [hat] at hsa3
        cases hbt : alGet crb.plugin_data t with
        | none => rw [hbt] at hsa3; simp at hsa3
        | some mb =>
          rw [hbt] at hsa3
          simp only [Option.map_some'] at hsa3
          have hkeys := Option.some_inj.mp hsa3
          rw [getPlugin_eq a c t n cra ma hac hat] at ha
          rw [getPlugin_eq b c t n crb mb hbc hbt]
          exact alGet_isSome_of_keys_eq ma mb n hkeys ha

/-! ### Splitting and joining FQNs -/

theorem splitDots_ne_nil (l : List Char) : splitDots l ≠ [] := by
  cases l with
  | nil => simp [splitDots]
  | cons c rest =>
    unfold splitDots
    by_cases hc : c = '.'
    · simp [hc]
    · simp only [hc, if_false]
      cases splitDots rest <;> simp

theorem joinDots_splitDots (l : List Char) : joinDots (splitDots l) = l := by
  induction l with
  | nil => rfl
  | cons c rest ih =>
    by_cases hc : c = '.'
    · subst hc
      unfold splitDots
      simp only [if_pos rfl]
      cases hg : splitDots rest with
      | nil => exact absurd hg (splitDots_ne_nil rest)
      | cons g gs =>
        rw [hg] at ih
        simp only [joinDots]
        rw [ih]
        rfl
    · unfold splitDots
      simp only [hc, if_false]
      cases hg : splitDots rest with
      | nil => exact absurd hg (splitDots_ne_nil rest)
      | cons g gs =>
        rw [hg] at ih
        cases gs with
        | nil => simp only [joinDots] at ih ⊢; rw [ih]
        | cons g2 gs2 =>
          simp only [joinDots] at ih ⊢
          rw [List.cons_append, ih]

theorem string_append_data (a b : String) : (a ++ b).data = a.data ++ b.data := rfl

theorem pySplitDot2_join (s x y z : String) (h : pySplitDot2 s = [x, y, z]) :
    (x ++ "." ++ y) ++ "." ++ z = s := by
  have hj := joinDots_splitDots s.data
  unfold pySplitDot2 at h
  cases hg : splitDots s.data with
  | nil => rw [hg] at h; simp at h
  | cons a gs =>
    cases gs with
    | nil => rw [hg] at h; simp at h
    | cons b gs2 =>
      cases gs2 with
      | nil => rw [hg] at h; simp at h
      | cons c rest =>
        rw [hg] at h
        simp only [List.cons.injEq] at h
        obtain ⟨hx, hy, hz, _⟩ := h
        rw [hg] at hj
        simp only [joinDots] at hj
        subst hx hy hz
        apply String.ext
        simp only [string_append_data]
        rw [← hj]
        simp

/-! ### Redirection-list item invariants -/

/-- Invariant of the `redirection_list` items built by the walk: an item with
an owning-map reference records the owning collection consistently, its FQN is
the join of the owning collection and the plugin name, it is distinct from the
walk's starting FQN, and the referenced catalog path exists. -/
def ItemInv (cat : RoutingData) (pt fq : String) (e : RItem) : Prop :=
  ∀ c, e.owner = some c → e.coll = c ∧ e.fqcn = c ++ "." ++ e.pname ∧
    e.fqcn ≠ fq ∧ (getPlugin cat c pt e.pname).isSome

theorem itemInv_mono {cat cat' : RoutingData} {pt fq : String} {e : RItem}
    (hm : PresMono cat cat') (h : ItemInv cat pt fq e) : ItemInv cat' pt fq e := by
  intro c hc
  obtain ⟨h1, h2, h3, h4⟩ := h c hc
  exact ⟨h1, h2, h3, hm c pt e.pname h4⟩

/-- The chain of the resolved record starts at the given FQN, and the record
redirects somewhere (cycle marker or string). -/
def chainStartsAt (fq : String) (r : PluginRouting) : Prop :=
  ∃ l, r.redirect_chain = some l ∧ l.head? = some fq ∧
    r.redirect ≠ Redirect.none

theorem writtenOk_iff_chainStartsAt (c n : String) (r : PluginRouting) :
    writtenOk c n r ↔ chainStartsAt (c ++ "." ++ n) r := Iff.rfl

/-- Writes of `b` relative to `a` stay away from the walk's starting FQN. -/
def WAway (fq : String) (a b : RoutingData) : Prop :=
  ∀ c t n r, getPlugin b c t n = some r →
    getPlugin a c t n = some r ∨ (writtenOk c n r ∧ c ++ "." ++ n ≠ fq)

theorem wAway_refl (fq : String) (a : RoutingData) : WAway fq a a :=
  fun _ _ _ _ h => Or.inl h

theorem wAway_trans {fq : String} {a b c : RoutingData} (h1 : WAway fq a b)
    (h2 : WAway fq b c) : WAway fq a c := by
  intro x y z r h
  rcases h2 x y z r h with h' | h'
  · exact h1 x y z r h'
  · exact Or.inr h'

theorem wAway_toStepRel {fq : String} {a b : RoutingData} (h : WAway fq a b) :
    StepRel a b := by
  intro x y z r hr
  rcases h x y z r hr with h' | ⟨h', _⟩
  · exact Or.inl h'
  · exact Or.inr h'

/-! ### Properties of the cycle rewrite loop -/

theorem cycleGo_props (pt fq : String) (rdwi : List (Nat × (String × RemovalData))) :
    ∀ (loop : List RItem) (idx : Nat) (cat : RoutingData) (pdret : PluginRouting)
      (acc : List String),
      (∀ e ∈ loop, ItemInv cat pt fq e) →
      catShape (cycleGo pt fq rdwi idx loop
          (cat, pdret, loop.map (fun e => e.fqcn) ++ acc)).1 = catShape cat ∧
      PresMono cat (cycleGo pt fq rdwi idx loop
          (cat, pdret, loop.map (fun e => e.fqcn) ++ acc)).1 ∧
      WAway fq cat (cycleGo pt fq rdwi idx loop
          (cat, pdret, loop.map (fun e => e.fqcn) ++ acc)).1 ∧
      ((cycleGo pt fq rdwi idx loop
          (cat, pdret, loop.map (fun e => e.fqcn) ++ acc)).2.1 = pdret ∨
        chainStartsAt fq (cycleGo pt fq rdwi idx loop
          (cat, pdret, loop.map (fun e => e.fqcn) ++ acc)).2.1) ∧
      ((∃ e ∈ loop, e.fqcn = fq ∧ e.pdata.isSome) →
        chainStartsAt fq (cycleGo pt fq rdwi idx loop
          (cat, pdret, loop.map (fun e => e.fqcn) ++ acc)).2.1) ∧
      (chainStartsAt fq pdret →
        chainStartsAt fq (cycleGo pt fq rdwi idx loop
          (cat, pdret, loop.map (fun e => e.fqcn) ++ acc)).2.1) := by
  intro loop
  induction loop with
  | nil =>
    intro idx cat pdret acc _
    refine ⟨rfl, presMono_refl cat, wAway_refl fq cat, Or.inl rfl, ?_, fun h => h⟩
    rintro ⟨e, he, _⟩
    simp at he
  | cons elt rest ih =>
    intro idx cat pdret acc hinv
    have hinv_elt := hinv elt (List.mem_cons_self elt rest)
    -- the rotating chain: append the element's FQN, then drop the head
    have hchain : (List.map (fun e => e.fqcn) (elt :: rest) ++ acc) ++ [elt.fqcn] =
        elt.fqcn :: (List.map (fun e => e.fqcn) rest ++ (acc ++ [elt.fqcn])) := by
      simp
    cases hpd : elt.pdata with
    | none =>
      have hstep : cycleGo pt fq rdwi idx (elt :: rest)
          (cat, pdret, List.map (fun e => e.fqcn) (elt :: rest) ++ acc) =
          cycleGo pt fq rdwi (idx + 1) rest
            (cat, pdret, List.map (fun e => e.fqcn) rest ++ (acc ++ [elt.fqcn])) := by
        simp only [cycleGo, hpd]
        rw [hchain]
        rfl
      rw [hstep]
      have hinv' : ∀ e ∈ rest, ItemInv cat pt fq e :=
        fun e he => hinv e (List.mem_cons_of_mem _ he)
      obtain ⟨ha, hb, hc, hd, he, hf⟩ := ih (idx + 1) cat pdret (acc ++ [elt.fqcn]) hinv'
      refine ⟨ha, hb, hc, hd, ?_, hf⟩
      rintro ⟨e, hmem, hfq, hsome⟩
      rcases List.mem_cons.mp hmem with heq | hmem'
      · subst heq; rw [hpd] at hsome; simp at hsome
      · exact he ⟨e, hmem', hfq, hsome⟩
    | some ppd =>
      set new_pd : PluginRouting :=
        { action_plugin := ppd.action_plugin
          redirect := Redirect.ellipsis
          redirect_chain := some ((List.map (fun e => e.fqcn) (elt :: rest) ++ acc)
            ++ [elt.fqcn])
          redirect_deprecations := listOrNone
            (((rdwi.filter (fun q => idx ≤ q.1)).map (fun q => q.2)) ++
             ((rdwi.filter (fun q => q.1 < idx)).map (fun q => q.2)))
          redirect_tombstone := false
          redirect_dead_end := false
          redirect_error := some "Detected circular redirect"
          deprecation := ppd.deprecation
          tombstone := ppd.tombstone } with hnewpd
      have hstep : cycleGo pt fq rdwi idx (elt :: rest)
          (cat, pdret, List.map (fun e => e.fqcn) (elt :: rest) ++ acc) =
          cycleGo pt fq rdwi (idx + 1) rest
            (writeOwner cat pt elt.owner elt.pname new_pd,
             (if elt.fqcn = fq then new_pd else pdret),
             List.map (fun e => e.fqcn) rest ++ (acc ++ [elt.fqcn])) := by
        simp only [cycleGo, hpd, hnewpd]
        rw [hchain]
        rfl
      rw [hstep]
      have hshape1 : catShape (writeOwner cat pt elt.owner elt.pname new_pd) =
          catShape cat := by
        refine catShape_writeOwner cat pt elt.owner elt.pname new_pd ?_
        intro c' hc'
        exact (hinv_elt c' hc').2.2.2
      have hmono1 : PresMono cat (writeOwner cat pt elt.owner elt.pname new_pd) :=
        presMono_writeOwner cat pt elt.owner elt.pname new_pd
      have haway1 : WAway fq cat (writeOwner cat pt elt.owner elt.pname new_pd) := by
        intro x y z r hr
        rcases getPlugin_writeOwner_or cat pt elt.owner elt.pname new_pd x y z with
          heq | ⟨how, hty, hpn, heq⟩
        · rw [heq] at hr; exact Or.inl hr
        · rw [heq] at hr
          cases hr
          obtain ⟨_, hjoin, hne, _⟩ := hinv_elt x how
          right
          constructor
          · refine ⟨_, rfl, ?_, by simp [hnewpd]⟩
            rw [hchain]
            simp only [List.head?]
            rw [← hpn, ← hjoin]
          · rw [← hpn, ← hjoin]; exact hne
      have hnew_starts : elt.fqcn = fq → chainStartsAt fq new_pd := by
        intro hfq
        refine ⟨_, rfl, ?_, by simp [hnewpd]⟩
        rw [hchain]
        simp only [List.head?]
        rw [hfq]
      have hinv' : ∀ e ∈ rest,
          ItemInv (writeOwner cat pt elt.owner elt.pname new_pd) pt fq e :=
        fun e he => itemInv_mono hmono1 (hinv e (List.mem_cons_of_mem _ he))
      obtain ⟨ha, hb, hc, hd, he, hf⟩ := ih (idx + 1)
        (writeOwner cat pt elt.owner elt.pname new_pd)
        (if elt.fqcn = fq then new_pd else pdret) (acc ++ [elt.fqcn]) hinv'
      refine ⟨hshape1 ▸ ha, presMono_trans hmono1 hb, wAway_trans haway1 hc, ?_, ?_, ?_⟩
      · rcases hd with hd | hd
        · rw [hd]
          by_cases hfq : elt.fqcn = fq
          · exact Or.inr (by rw [if_pos hfq]; exact hnew_starts hfq)
          · rw [if_neg hfq]; exact Or.inl rfl
        · exact Or.inr hd
      · rintro ⟨e, hmem, hfq, hsome⟩
        rcases List.mem_cons.mp hmem with heq | hmem'
        · subst heq
          exact hf (by rw [if_pos hfq]; exact hnew_starts hfq)
        · exact he ⟨e, hmem', hfq, hsome⟩
      · intro hstart
        refine hf ?_
        by_cases hfq : elt.fqcn = fq
        · rw [if_pos hfq]; exact hnew_starts hfq
        · rw [if_neg hfq]; exact hstart

/-! ### Step equations for the walk -/

theorem pySplitDot2_length (s : String) : (pySplitDot2 s).length ≤ 3 := by
  unfold pySplitDot2
  cases hg : splitDots s.data with
  | nil => simp
  | cons a gs =>
    cases gs with
    | nil => simp
    | cons b gs2 =>
      cases gs2 with
      | nil => simp
      | cons c rest => simp

theorem walk_zero (rd : RoutingData) (pt fq : String) (pd0 : PluginRouting)
    (found : List String) (rlist : List RItem) (nn : String) :
    walk rd pt fq pd0 0 found rlist nn = Except.error "RecursionLimit" := rfl

theorem walk_cycle_eq (rd : RoutingData) (pt fq : String) (pd0 : PluginRouting)
    (fuel : Nat) (found : List String) (rlist : List RItem) (nn : String)
    (si : Nat) (h1 : nn ∈ found)
    (h2 : List.findIdx? (fun elt => elt.fqcn = nn) rlist = some si) :
    walk rd pt fq pd0 (fuel + 1) found rlist nn =
      Except.ok
        { catalog := (cycleGo pt fq (cycleDeps 0 (rlist.drop si)) 0 (rlist.drop si)
            (rd, pd0, (rlist.drop si).map (fun elt => elt.fqcn))).1
          plugin_data := (cycleGo pt fq (cycleDeps 0 (rlist.drop si)) 0 (rlist.drop si)
            (rd, pd0, (rlist.drop si).map (fun elt => elt.fqcn))).2.1
          rlist := rlist.take si
          chain := some ((cycleGo pt fq (cycleDeps 0 (rlist.drop si)) 0 (rlist.drop si)
            (rd, pd0, (rlist.drop si).map (fun elt => elt.fqcn))).2.2 ++ [nn])
          deps := listOrNone ((cycleDeps 0 (rlist.drop si)).map (fun q => q.2))
          tombstone := false
          dead_end := false
          error := some "Detected circular redirect"
          is_loop := true
          next_name := nn } := by
  simp only [walk, if_pos h1, h2]

theorem walk_cycle_stop (rd : RoutingData) (pt fq : String) (pd0 : PluginRouting)
    (fuel : Nat) (found : List String) (rlist : List RItem) (nn : String)
    (h1 : nn ∈ found)
    (h2 : List.findIdx? (fun elt => elt.fqcn = nn) rlist = Option.none) :
    walk rd pt fq pd0 (fuel + 1) found rlist nn =
      Except.error "StopIteration" := by
  simp only [walk, if_pos h1, h2]

theorem walk_nonfqcn_eq (rd : RoutingData) (pt fq : String) (pd0 : PluginRouting)
    (fuel : Nat) (found : List String) (rlist : List RItem) (nn : String)
    (h1 : nn ∉ found) (h2 : (pySplitDot2 nn).length ≠ 3) :
    walk rd pt fq pd0 (fuel + 1) found rlist nn =
      Except.ok
        { catalog := rd
          plugin_data := pd0
          rlist := rlist
          chain := Option.none
          deps := Option.none
          tombstone := false
          dead_end := true
          error := some ("Found redirect to non-FQCN " ++ nn)
          is_loop := false
          next_name := nn } := by
  have h3 := pySplitDot2_length nn
  cases hg : pySplitDot2 nn with
  | nil => simp only [walk, if_neg h1, hg]
  | cons a gs =>
    cases gs with
    | nil => simp only [walk, if_neg h1, hg]
    | cons b gs2 =>
      cases gs2 with
      | nil => simp only [walk, if_neg h1, hg]
      | cons c rest =>
        cases rest with
        | nil => rw [hg] at h2; simp at h2
        | cons d rest2 => rw [hg] at h3; simp at h3

theorem walk_unknown_eq (rd : RoutingData) (pt fq : String) (pd0 : PluginRouting)
    (fuel : Nat) (found : List String) (rlist : List RItem) (nn : String)
    (ns cn pn : String) (h1 : nn ∉ found) (h2 : pySplitDot2 nn = [ns, cn, pn])
    (h3 : alGet rd (ns ++ "." ++ cn) = Option.none) :
    walk rd pt fq pd0 (fuel + 1) found rlist nn =
      Except.ok
        { catalog := rd
          plugin_data := pd0
          rlist := rlist ++
            [⟨nn, ns ++ "." ++ cn, pn, Option.none, Option.none⟩]
          chain := Option.none
          deps := Option.none
          tombstone := false
          dead_end := true
          error := some ("Found redirect to unknown collection " ++ (ns ++ "." ++ cn))
          is_loop := false
          next_name := nn } := by
  simp only [walk, if_neg h1, h2, h3]

theorem walk_clean_none_eq (rd : RoutingData) (pt fq : String)
    (pd0 : PluginRouting) (fuel : Nat) (found : List String) (rlist : List RItem)
    (nn : String) (ns cn pn : String) (cr : CollectionRouting)
    (h1 : nn ∉ found) (h2 : pySplitDot2 nn = [ns, cn, pn])
    (h3 : alGet rd (ns ++ "." ++ cn) = some cr)
    (h4 : (match alGet cr.plugin_data pt with
           | some m => alGet m pn
           | Option.none => Option.none) = (Option.none : Option PluginRouting)) :
    walk rd pt fq pd0 (fuel + 1) found rlist nn =
      Except.ok
        { catalog := rd
          plugin_data := pd0
          rlist := rlist ++
            [⟨nn, ns ++ "." ++ cn, pn, Option.none, Option.none⟩]
          chain := Option.none
          deps := Option.none
          tombstone := false
          dead_end := false
          error := Option.none
          is_loop := false
          next_name := nn } := by
  simp only [walk, if_neg h1, h2, h3, h4]

theorem walk_tomb_eq (rd : RoutingData) (pt fq : String) (pd0 : PluginRouting)
    (fuel : Nat) (found : List String) (rlist : List RItem) (nn : String)
    (ns cn pn : String) (cr : CollectionRouting) (p : PluginRouting)
    (ts : RemovalData)
    (h1 : nn ∉ found) (h2 : pySplitDot2 nn = [ns, cn, pn])
    (h3 : alGet rd (ns ++ "." ++ cn) = some cr)
    (h4 : (match alGet cr.plugin_data pt with
           | some m => alGet m pn
           | Option.none => Option.none) = some p)
    (h5 : p.tombstone = some ts) :
    walk rd pt fq pd0 (fuel + 1) found rlist nn =
      Except.ok
        { catalog := rd
          plugin_data := pd0
          rlist := rlist
          chain := Option.none
          deps := some [(nn, ts)]
          tombstone := true
          dead_end := false
          error := Option.none
          is_loop := false
          next_name := nn } := by
  simp only [walk, if_neg h1, h2, h3, h4, h5]

theorem walk_clean_some_eq (rd : RoutingData) (pt fq : String)
    (pd0 : PluginRouting) (fuel : Nat) (found : List String) (rlist : List RItem)
    (nn : String) (ns cn pn : String) (cr : CollectionRouting) (p : PluginRouting)
    (h1 : nn ∉ found) (h2 : pySplitDot2 nn = [ns, cn, pn])
    (h3 : alGet rd (ns ++ "." ++ cn) = some cr)
    (h4 : (match alGet cr.plugin_data pt with
           | some m => alGet m pn
           | Option.none => Option.none) = some p)
    (h5 : p.tombstone = Option.none) (h6 : p.redirect = Redirect.none) :
    walk rd pt fq pd0 (fuel + 1) found rlist nn =
      Except.ok
        { catalog := rd
          plugin_data := pd0
          rlist := rlist ++ [⟨nn, ns ++ "." ++ cn, pn, some p, Option.none⟩]
          chain := Option.none
          deps := Option.none
          tombstone := false
          dead_end := false
          error := Option.none
          is_loop := false
          next_name := nn } := by
  simp only [walk, if_neg h1, h2, h3, h4, h5, h6]

theorem walk_reuse_ell_eq (rd : RoutingData) (pt fq : String)
    (pd0 : PluginRouting) (fuel : Nat) (found : List String) (rlist : List RItem)
    (nn : String) (ns cn pn : String) (cr : CollectionRouting) (p : PluginRouting)
    (h1 : nn ∉ found) (h2 : pySplitDot2 nn = [ns, cn, pn])
    (h3 : alGet rd (ns ++ "." ++ cn) = some cr)
    (h4 : (match alGet cr.plugin_data pt with
           | some m => alGet m pn
           | Option.none => Option.none) = some p)
    (h5 : p.tombstone = Option.none) (h6 : p.redirect = Redirect.ellipsis)
    (h7 : (p.redirect_error.isSome || p.redirect_tombstone ||
      p.redirect_dead_end) = true) :
    walk rd pt fq pd0 (fuel + 1) found rlist nn =
      Except.ok
        { catalog := rd
          plugin_data := pd0
          rlist := rlist
          chain := p.redirect_chain
          deps := p.redirect_deprecations
          tombstone := p.redirect_tombstone
          dead_end := p.redirect_dead_end
          error := p.redirect_error
          is_loop := true
          next_name := nn } := by
  simp only [walk, if_neg h1, h2, h3, h4, h5, h6, if_pos h7]

theorem walk_assert_eq (rd : RoutingData) (pt fq : String)
    (pd0 : PluginRouting) (fuel : Nat) (found : List String) (rlist : List RItem)
    (nn : String) (ns cn pn : String) (cr : CollectionRouting) (p : PluginRouting)
    (h1 : nn ∉ found) (h2 : pySplitDot2 nn = [ns, cn, pn])
    (h3 : alGet rd (ns ++ "." ++ cn) = some cr)
    (h4 : (match alGet cr.plugin_data pt with
           | some m => alGet m pn
           | Option.none => Option.none) = some p)
    (h5 : p.tombstone = Option.none) (h6 : p.redirect = Redirect.ellipsis)
    (h7 : ¬ (p.redirect_error.isSome || p.redirect_tombstone ||
      p.redirect_dead_end) = true) :
    walk rd pt fq pd0 (fuel + 1) found rlist nn =
      Except.error
        "Bad internal state: circular redirect should have been marked as an error" := by
  simp only [walk, if_neg h1, h2, h3, h4, h5, h6, if_neg h7]

theorem walk_reuse_str_eq (rd : RoutingData) (pt fq : String)
    (pd0 : PluginRouting) (fuel : Nat) (found : List String) (rlist : List RItem)
    (nn : String) (ns cn pn s : String) (cr : CollectionRouting) (p : PluginRouting)
    (h1 : nn ∉ found) (h2 : pySplitDot2 nn = [ns, cn, pn])
    (h3 : alGet rd (ns ++ "." ++ cn) = some cr)
    (h4 : (match alGet cr.plugin_data pt with
           | some m => alGet m pn
           | Option.none => Option.none) = some p)
    (h5 : p.tombstone = Option.none) (h6 : p.redirect = Redirect.str s)
    (h7 : (p.redirect_error.isSome || p.redirect_tombstone ||
      p.redirect_dead_end) = true) :
    walk rd pt fq pd0 (fuel + 1) found rlist nn =
      Except.ok
        { catalog := rd
          plugin_data := pd0
          rlist := rlist
          chain := p.redirect_chain
          deps := p.redirect_deprecations
          tombstone := p.redirect_tombstone
          dead_end := p.redirect_dead_end
          error := p.redirect_error
          is_loop := false
          next_name := nn } := by
  simp only [walk, if_neg h1, h2, h3, h4, h5, h6, if_pos h7]

theorem walk_step_eq (rd : RoutingData) (pt fq : String)
    (pd0 : PluginRouting) (fuel : Nat) (found : List String) (rlist : List RItem)
    (nn : String) (ns cn pn s : String) (cr : CollectionRouting) (p : PluginRouting)
    (h1 : nn ∉ found) (h2 : pySplitDot2 nn = [ns, cn, pn])
    (h3 : alGet rd (ns ++ "." ++ cn) = some cr)
    (h4 : (match alGet cr.plugin_data pt with
           | some m => alGet m pn
           | Option.none => Option.none) = some p)
    (h5 : p.tombstone = Option.none) (h6 : p.redirect = Redirect.str s)
    (h7 : ¬ (p.redirect_error.isSome || p.redirect_tombstone ||
      p.redirect_dead_end) = true) :
    walk rd pt fq pd0 (fuel + 1) found rlist nn =
      walk rd pt fq pd0 fuel (found ++ [nn])
        (rlist ++ [⟨nn, ns ++ "." ++ cn, pn, some p, some (ns ++ "." ++ cn)⟩]) s := by
  simp only [walk, if_neg h1, h2, h3, h4, h5, h6, if_neg h7]

/-! ### The walk invariant -/

theorem mem_of_head? {α : Type} {l : List α} {a : α} (h : l.head? = some a) :
    a ∈ l := by
  cases l with
  | nil => simp at h
  | cons x tl =>
    simp at h
    simp [h]

theorem head?_append_single {α : Type} (l : List α) (x : α) (e0 : α)
    (h : l.head? = some e0) : (l ++ [x]).head? = some e0 := by
  cases l with
  | nil => simp at h
  | cons a tl => simpa using h

theorem head?_take_succ {α : Type} (l : List α) (k : Nat) :
    (l.take (k + 1)).head? = l.head? := by
  cases l <;> simp

theorem walk_props (rd : RoutingData) (pt fq : String) (pd0 : PluginRouting) :
    ∀ (fuel : Nat) (found : List String) (rlist : List RItem) (nn : String)
      (w : WalkOut),
      walk rd pt fq pd0 fuel found rlist nn = Except.ok w →
      fq ∈ found →
      (∀ e ∈ rlist, ItemInv rd pt fq e) →
      catShape w.catalog = catShape rd ∧
      PresMono rd w.catalog ∧
      WAway fq rd w.catalog ∧
      (∀ e ∈ w.rlist, ItemInv rd pt fq e) ∧
      (∀ e0, rlist.head? = some e0 → e0.fqcn = fq → e0.pdata.isSome →
        (w.rlist.head? = some e0 ∨ chainStartsAt fq w.plugin_data)) ∧
      (w.plugin_data = pd0 ∨ chainStartsAt fq w.plugin_data) := by
  intro fuel
  induction fuel with
  | zero =>
    intro found rlist nn w h _ _
    rw [walk_zero] at h
    exact absurd h (by simp)
  | succ fuel ih =>
    intro found rlist nn w h hfq hinv
    by_cases hmem : nn ∈ found
    · cases hidx : List.findIdx? (fun elt => elt.fqcn = nn) rlist with
      | none =>
        rw [walk_cycle_stop rd pt fq pd0 fuel found rlist nn hmem hidx] at h
        exact absurd h (by simp)
      | some si =>
        rw [walk_cycle_eq rd pt fq pd0 fuel found rlist nn si hmem hidx] at h
        rw [Except.ok.injEq] at h
        subst h
        have hloopinv : ∀ e ∈ rlist.drop si, ItemInv rd pt fq e :=
          fun e he => hinv e (List.drop_subset si rlist he)
        have hcg := cycleGo_props pt fq (cycleDeps 0 (rlist.drop si))
          (rlist.drop si) 0 rd pd0 [] hloopinv
        rw [List.append_nil] at hcg
        obtain ⟨ha, hb, hc, hd, hmatch, _⟩ := hcg
        refine ⟨ha, hb, hc, ?_, ?_, hd⟩
        · intro e he
          exact hinv e (List.take_subset si rlist he)
        · intro e0 h0 hfq0 hsome0
          cases si with
          | zero =>
            right
            refine hmatch ⟨e0, ?_, hfq0, hsome0⟩
            rw [List.drop_zero]
            exact mem_of_head? h0
          | succ k =>
            left
            rw [head?_take_succ]
            exact h0
    · by_cases hlen : (pySplitDot2 nn).length = 3
      · obtain ⟨ns, cn, pn, hsplit⟩ := List.length_eq_three.mp hlen
        cases hcoll : alGet rd (ns ++ "." ++ cn) with
        | none =>
          rw [walk_unknown_eq rd pt fq pd0 fuel found rlist nn ns cn pn hmem
            hsplit hcoll] at h
          rw [Except.ok.injEq] at h
          subst h
          refine ⟨rfl, presMono_refl rd, wAway_refl fq rd, ?_, ?_, Or.inl rfl⟩
          · intro e he
            rcases List.mem_append.mp he with he' | he'
            · exact hinv e he'
            · simp at he'
              subst he'
              intro c' hc'
              simp at hc'
          · intro e0 h0 _ _
            exact Or.inl (head?_append_single rlist _ e0 h0)
        | some cr =>
          cases hpd : (match alGet cr.plugin_data pt with
              | some m => alGet m pn
              | Option.none => Option.none : Option PluginRouting) with
          | none =>
            rw [walk_clean_none_eq rd pt fq pd0 fuel found rlist nn ns cn pn cr
              hmem hsplit hcoll hpd] at h
            rw [Except.ok.injEq] at h
            subst h
            refine ⟨rfl, presMono_refl rd, wAway_refl fq rd, ?_, ?_, Or.inl rfl⟩
            · intro e he
              rcases List.mem_append.mp he with he' | he'
              · exact hinv e he'
              · simp at he'
                subst he'
                intro c' hc'
                simp at hc'
            · intro e0 h0 _ _
              exact Or.inl (head?_append_single rlist _ e0 h0)
          | some p =>
            cases htomb : p.tombstone with
            | some ts =>
              rw [walk_tomb_eq rd pt fq pd0 fuel found rlist nn ns cn pn cr p ts
                hmem hsplit hcoll hpd htomb] at h
              rw [Except.ok.injEq] at h
              subst h
              refine ⟨rfl, presMono_refl rd, wAway_refl fq rd, hinv, ?_,
                Or.inl rfl⟩
              intro e0 h0 _ _
              exact Or.inl h0
            | none =>
              cases hred : p.redirect with
              | none =>
                rw [walk_clean_some_eq rd pt fq pd0 fuel found rlist nn ns cn pn
                  cr p hmem hsplit hcoll hpd htomb hred] at h
                rw [Except.ok.injEq] at h
                subst h
                refine ⟨rfl, presMono_refl rd, wAway_refl fq rd, ?_, ?_,
                  Or.inl rfl⟩
                · intro e he
                  rcases List.mem_append.mp he with he' | he'
                  · exact hinv e he'
                  · simp at he'
                    subst he'
                    intro c' hc'
                    simp at hc'
                · intro e0 h0 _ _
                  exact Or.inl (head?_append_single rlist _ e0 h0)
              | ellipsis =>
                by_cases hflags : (p.redirect_error.isSome || p.redirect_tombstone ||
                    p.redirect_dead_end) = true
                · rw [walk_reuse_ell_eq rd pt fq pd0 fuel found rlist nn ns cn pn
                    cr p hmem hsplit hcoll hpd htomb hred hflags] at h
                  rw [Except.ok.injEq] at h
                  subst h
                  refine ⟨rfl, presMono_refl rd, wAway_refl fq rd, hinv, ?_,
                    Or.inl rfl⟩
                  intro e0 h0 _ _
                  exact Or.inl h0
                · rw [walk_assert_eq rd pt fq pd0 fuel found rlist nn ns cn pn cr p
                    hmem hsplit hcoll hpd htomb hred hflags] at h
                  exact absurd h (by simp)
              | str s =>
                by_cases hflags : (p.redirect_error.isSome || p.redirect_tombstone ||
                    p.redirect_dead_end) = true
                · rw [walk_reuse_str_eq rd pt fq pd0 fuel found rlist nn ns cn pn s
                    cr p hmem hsplit hcoll hpd htomb hred hflags] at h
                  rw [Except.ok.injEq] at h
                  subst h
                  refine ⟨rfl, presMono_refl rd, wAway_refl fq rd, hinv, ?_,
                    Or.inl rfl⟩
                  intro e0 h0 _ _
                  exact Or.inl h0
                · rw [walk_step_eq rd pt fq pd0 fuel found rlist nn ns cn pn s cr p
                    hmem hsplit hcoll hpd htomb hred hflags] at h
                  have hpres : (getPlugin rd (ns ++ "." ++ cn) pt pn).isSome := by
                    cases hprd : alGet cr.plugin_data pt with
                    | none => rw [hprd] at hpd; simp at hpd
                    | some m =>
                      rw [hprd] at hpd
                      simp only [] at hpd
                      rw [getPlugin_eq rd (ns ++ "." ++ cn) pt pn cr m hcoll hprd]
                      simp [hpd]
                  have hinv' : ∀ e ∈ rlist ++
                      [⟨nn, ns ++ "." ++ cn, pn, some p, some (ns ++ "." ++ cn)⟩],
                      ItemInv rd pt fq e := by
                    intro e he
                    rcases List.mem_append.mp he with he' | he'
                    · exact hinv e he'
                    · simp at he'
                      subst he'
                      intro c' hc'
                      simp at hc'
                      subst hc'
                      refine ⟨rfl, ?_, ?_, hpres⟩
                      · exact (pySplitDot2_join nn ns cn pn hsplit).symm
                      · intro heq
                        simp only [] at heq
                        exact hmem (by rw [heq]; exact hfq)
                  have hih := ih (found ++ [nn])
                    (rlist ++ [⟨nn, ns ++ "." ++ cn, pn, some p, some (ns ++ "." ++ cn)⟩])
                    s w h (List.mem_append_left _ hfq) hinv'
                  obtain ⟨ha, hb, hc, hd, he, hf⟩ := hih
                  refine ⟨ha, hb, hc, hd, ?_, hf⟩
                  intro e0 h0 hfq0 hsome0
                  exact he e0 (head?_append_single rlist _ e0 h0) hfq0 hsome0
      · rw [walk_nonfqcn_eq rd pt fq pd0 fuel found rlist nn hmem hlen] at h
        rw [Except.ok.injEq] at h
        subst h
        refine ⟨rfl, presMono_refl rd, wAway_refl fq rd, hinv, ?_, Or.inl rfl⟩
        intro e0 h0 _ _
        exact Or.inl h0

/-! ### Properties of the tail-to-head rewrite -/

theorem rewriteGo_props (pt fq : String) (il : Bool) (nn : String)
    (tb dd : Bool) (er : Option String) :
    ∀ (l : List RItem) (st : RewriteSt),
      (∀ e ∈ l, ItemInv st.catalog pt fq e) →
      catShape (rewriteGo pt fq il nn tb dd er l st).catalog =
        catShape st.catalog ∧
      PresMono st.catalog (rewriteGo pt fq il nn tb dd er l st).catalog ∧
      WAway fq st.catalog (rewriteGo pt fq il nn tb dd er l st).catalog ∧
      (chainStartsAt fq st.pdret →
        chainStartsAt fq (rewriteGo pt fq il nn tb dd er l st).pdret) ∧
      ((∃ e ∈ l, e.fqcn = fq ∧ e.pdata.isSome) →
        chainStartsAt fq (rewriteGo pt fq il nn tb dd er l st).pdret) ∧
      ((rewriteGo pt fq il nn tb dd er l st).pdret = st.pdret ∨
        chainStartsAt fq (rewriteGo pt fq il nn tb dd er l st).pdret) := by
  intro l
  induction l with
  | nil =>
    intro st _
    refine ⟨rfl, presMono_refl _, wAway_refl fq _, fun h => h, ?_, Or.inl rfl⟩
    rintro ⟨e, he, _⟩
    simp at he
  | cons elt rest ih =>
    intro st hinv
    have hinv_elt := hinv elt (List.mem_cons_self elt rest)
    have hredne : (if il then Redirect.ellipsis else Redirect.str nn) ≠
        Redirect.none := by
      cases il <;> simp
    cases hpd : elt.pdata with
    | none =>
      have hstep : rewriteGo pt fq il nn tb dd er (elt :: rest) st =
          rewriteGo pt fq il nn tb dd er rest
            ⟨st.catalog, st.pdret, some (elt.fqcn :: (st.chain.getD [])),
             st.deps⟩ := by
        simp only [rewriteGo, hpd]
      rw [hstep]
      have hinv' : ∀ e ∈ rest, ItemInv
          (RewriteSt.mk st.catalog st.pdret
            (some (elt.fqcn :: (st.chain.getD []))) st.deps).catalog pt fq e :=
        fun e he => hinv e (List.mem_cons_of_mem _ he)
      obtain ⟨ha, hb, hc, hd, he, hf⟩ := ih _ hinv'
      refine ⟨ha, hb, hc, hd, ?_, hf⟩
      rintro ⟨e, hmem, hfq0, hsome⟩
      rcases List.mem_cons.mp hmem with heq | hmem'
      · subst heq; rw [hpd] at hsome; simp at hsome
      · exact he ⟨e, hmem', hfq0, hsome⟩
    | some ppd =>
      set deps' : Option (List (String × RemovalData)) :=
        (match ppd.deprecation with
         | some d => some ((elt.fqcn, d) :: (st.deps.getD []))
         | Option.none => st.deps) with hdeps
      set new_pd : PluginRouting :=
        { action_plugin := ppd.action_plugin
          redirect := if il then Redirect.ellipsis else Redirect.str nn
          redirect_chain := some (elt.fqcn :: (st.chain.getD []))
          redirect_deprecations := deps'
          redirect_tombstone := tb
          redirect_dead_end := dd
          redirect_error := er
          deprecation := ppd.deprecation
          tombstone := ppd.tombstone } with hnewpd
      have hstep : rewriteGo pt fq il nn tb dd er (elt :: rest) st =
          rewriteGo pt fq il nn tb dd er rest
            ⟨writeOwner st.catalog pt elt.owner elt.pname new_pd,
             (if elt.fqcn = fq then new_pd else st.pdret),
             some (elt.fqcn :: (st.chain.getD [])), deps'⟩ := by
        simp only [rewriteGo, hpd, hnewpd, hdeps]
      rw [hstep]
      have hshape1 : catShape (writeOwner st.catalog pt elt.owner elt.pname
          new_pd) = catShape st.catalog := by
        refine catShape_writeOwner st.catalog pt elt.owner elt.pname new_pd ?_
        intro c' hc'
        exact (hinv_elt c' hc').2.2.2
      have hmono1 : PresMono st.catalog
          (writeOwner st.catalog pt elt.owner elt.pname new_pd) :=
        presMono_writeOwner st.catalog pt elt.owner elt.pname new_pd
      have haway1 : WAway fq st.catalog
          (writeOwner st.catalog pt elt.owner elt.pname new_pd) := by
        intro x y z r hr
        rcases getPlugin_writeOwner_or st.catalog pt elt.owner elt.pname new_pd
          x y z with heq | ⟨how, hty, hpn, heq⟩
        · rw [heq] at hr; exact Or.inl hr
        · rw [heq] at hr
          cases hr
          obtain ⟨_, hjoin, hne, _⟩ := hinv_elt x how
          right
          constructor
          · refine ⟨_, rfl, ?_, hredne⟩
            simp only [List.head?]
            rw [← hpn, ← hjoin]
          · rw [← hpn, ← hjoin]; exact hne
      have hnew_starts : elt.fqcn = fq → chainStartsAt fq new_pd := by
        intro hfq0
        refine ⟨_, rfl, ?_, hredne⟩
        simp only [List.head?]
        rw [hfq0]
      have hinv' : ∀ e ∈ rest, ItemInv
          (RewriteSt.mk (writeOwner st.catalog pt elt.owner elt.pname new_pd)
            (if elt.fqcn = fq then new_pd else st.pdret)
            (some (elt.fqcn :: (st.chain.getD []))) deps').catalog pt fq e :=
        fun e he => itemInv_mono hmono1 (hinv e (List.mem_cons_of_mem _ he))
      obtain ⟨ha, hb, hc, hd, he, hf⟩ := ih _ hinv'
      refine ⟨hshape1 ▸ ha, presMono_trans hmono1 hb, wAway_trans haway1 hc, ?_, ?_, ?_⟩
      · intro hstart
        refine hd ?_
        simp only []
        by_cases hfq0 : elt.fqcn = fq
        · rw [if_pos hfq0]; exact hnew_starts hfq0
        · rw [if_neg hfq0]; exact hstart
      · rintro ⟨e, hmem, hfq0, hsome⟩
        rcases List.mem_cons.mp hmem with heq | hmem'
        · subst heq
          refine hd ?_
          simp only []
          rw [if_pos hfq0]
          exact hnew_starts hfq0
        · exact he ⟨e, hmem', hfq0, hsome⟩
      · rcases hf with hf | hf
        · rw [hf]
          simp only []
          by_cases hfq0 : elt.fqcn = fq
          · rw [if_pos hfq0]
            exact Or.inr (hnew_starts hfq0)
          · rw [if_neg hfq0]
            exact Or.inl rfl
        · exact Or.inr hf

/-! ### Properties of `_complete_redirect` -/

theorem resolvedDone_of_chainStartsAt {fq : String} {r : PluginRouting}
    (h : chainStartsAt fq r) : resolvedDone r = true := by
  obtain ⟨l, hl, _, hr⟩ := h
  unfold resolvedDone
  cases hred : r.redirect <;> simp_all

theorem completeRedirect_work_eq (pd : PluginRouting) (rd : RoutingData)
    (cn pt n s : String) (hred : pd.redirect = Redirect.str s)
    (hchain : pd.redirect_chain = Option.none) :
    completeRedirect pd rd cn pt n =
      match walk rd pt (cn ++ "." ++ n) pd (pluginCount rd + 2)
          [cn ++ "." ++ n]
          [⟨cn ++ "." ++ n, cn, n, some pd, Option.none⟩] s with
      | Except.error e => Except.error e
      | Except.ok w =>
        Except.ok
          ((rewriteGo pt (cn ++ "." ++ n) w.is_loop w.next_name w.tombstone
            w.dead_end w.error w.rlist.reverse
            ⟨w.catalog, w.plugin_data, w.chain, w.deps⟩).catalog,
           (rewriteGo pt (cn ++ "." ++ n) w.is_loop w.next_name w.tombstone
            w.dead_end w.error w.rlist.reverse
            ⟨w.catalog, w.plugin_data, w.chain, w.deps⟩).pdret) := by
  simp only [completeRedirect, hred, hchain]

theorem completeRedirect_guard (pd : PluginRouting) (rd : RoutingData)
    (cn pt n : String) (h : resolvedDone pd = true) :
    completeRedirect pd rd cn pt n = Except.ok (rd, pd) := by
  unfold resolvedDone at h
  cases hred : pd.redirect with
  | none => simp only [completeRedirect, hred]
  | ellipsis => simp only [completeRedirect, hred]
  | str s =>
    cases hchain : pd.redirect_chain with
    | none => rw [hred, hchain] at h; simp at h
    | some l => simp only [completeRedirect, hred, hchain]

theorem completeRedirect_props (pd : PluginRouting) (rd : RoutingData)
    (cn pt n : String) (cat' : RoutingData) (pd' : PluginRouting)
    (h : completeRedirect pd rd cn pt n = Except.ok (cat', pd')) :
    catShape cat' = catShape rd ∧
    PresMono rd cat' ∧
    WAway (cn ++ "." ++ n) rd cat' ∧
    resolvedDone pd' = true ∧
    (resolvedDone pd = true → cat' = rd ∧ pd' = pd) ∧
    (pd.redirect_chain = Option.none → (∃ s, pd.redirect = Redirect.str s) →
      chainStartsAt (cn ++ "." ++ n) pd') := by
  by_cases hdone : resolvedDone pd = true
  · rw [completeRedirect_guard pd rd cn pt n hdone] at h
    rw [Except.ok.injEq, Prod.mk.injEq] at h
    obtain ⟨h1, h2⟩ := h
    subst h1
    subst h2
    refine ⟨rfl, presMono_refl rd, wAway_refl _ rd, hdone, fun _ => ⟨rfl, rfl⟩, ?_⟩
    intro hchain ⟨s, hred⟩
    unfold resolvedDone at hdone
    rw [hred, hchain] at hdone
    simp at hdone
  · have hform : ∃ s, pd.redirect = Redirect.str s ∧
        pd.redirect_chain = Option.none := by
      unfold resolvedDone at hdone
      cases hred : pd.redirect with
      | none => rw [hred] at hdone; simp at hdone
      | ellipsis => rw [hred] at hdone; simp at hdone
      | str s =>
        cases hchain : pd.redirect_chain with
        | none => exact ⟨s, rfl, rfl⟩
        | some l => rw [hred, hchain] at hdone; simp at hdone
    obtain ⟨s, hred, hchain⟩ := hform
    rw [completeRedirect_work_eq pd rd cn pt n s hred hchain] at h
    cases hw : walk rd pt (cn ++ "." ++ n) pd (pluginCount rd + 2)
        [cn ++ "." ++ n] [⟨cn ++ "." ++ n, cn, n, some pd, Option.none⟩] s with
    | error e => rw [hw] at h; exact absurd h (by simp)
    | ok w =>
      rw [hw] at h
      simp only [] at h
      rw [Except.ok.injEq, Prod.mk.injEq] at h
      obtain ⟨h1, h2⟩ := h
      have hstartinv : ∀ e ∈ [(⟨cn ++ "." ++ n, cn, n, some pd,
          Option.none⟩ : RItem)], ItemInv rd pt (cn ++ "." ++ n) e := by
        intro e he
        simp at he
        subst he
        intro c' hc'
        simp at hc'
      have hwp := walk_props rd pt (cn ++ "." ++ n) pd (pluginCount rd + 2)
        [cn ++ "." ++ n] [⟨cn ++ "." ++ n, cn, n, some pd, Option.none⟩] s w hw
        (by simp) hstartinv
      obtain ⟨ha, hb, hc, hd, he, _⟩ := hwp
      have hrinv : ∀ e ∈ w.rlist.reverse,
          ItemInv (RewriteSt.mk w.catalog w.plugin_data w.chain w.deps).catalog
            pt (cn ++ "." ++ n) e := by
        intro e hmem
        exact itemInv_mono hb (hd e (List.mem_reverse.mp hmem))
      obtain ⟨ra, rb, rc, rdp, rex, _⟩ := rewriteGo_props pt (cn ++ "." ++ n)
        w.is_loop w.next_name w.tombstone w.dead_end w.error w.rlist.reverse
        ⟨w.catalog, w.plugin_data, w.chain, w.deps⟩ hrinv
      have hstart : chainStartsAt (cn ++ "." ++ n)
          (rewriteGo pt (cn ++ "." ++ n) w.is_loop w.next_name w.tombstone
            w.dead_end w.error w.rlist.reverse
            ⟨w.catalog, w.plugin_data, w.chain, w.deps⟩).pdret := by
        have hhd := he ⟨cn ++ "." ++ n, cn, n, some pd, Option.none⟩
          (by simp) rfl (by simp)
        rcases hhd with hhd | hhd
        · refine rex ⟨⟨cn ++ "." ++ n, cn, n, some pd, Option.none⟩, ?_, rfl,
            by simp⟩
          exact List.mem_reverse.mpr (mem_of_head? hhd)
        · exact rdp hhd
      subst h1
      subst h2
      refine ⟨?_, ?_, ?_, ?_, ?_, fun _ _ => hstart⟩
      · rw [ra]; exact ha
      · exact presMono_trans hb rb
      · exact wAway_trans hc rc
      · exact resolvedDone_of_chainStartsAt hstart
      · intro hd2; exact absurd hd2 hdone

/-! ### Per-location predicates over catalogs -/

/-- Every record of the catalog satisfies the resolver's early-return guard. -/
def AllDone (cat : RoutingData) : Prop :=
  ∀ c t n r, getPlugin cat c t n = some r → resolvedDone r = true

/-- The record stored at the path is resolved. -/
def LocDone (cat : RoutingData) (c t n : String) : Prop :=
  ∀ r, getPlugin cat c t n = some r → resolvedDone r = true

/-- The record stored at the path was produced by a resolver rewrite. -/
def LocOwn (cat : RoutingData) (c t n : String) : Prop :=
  ∀ r, getPlugin cat c t n = some r → writtenOk c n r

/-- The path still stores a freshly loaded, unresolved string redirect. -/
def OrigUnres (cat : RoutingData) (c t n : String) : Prop :=
  ∃ r₀ s, getPlugin cat c t n = some r₀ ∧ r₀.redirect = Redirect.str s ∧
    r₀.redirect_chain = Option.none

theorem locDone_of_stepRel {a b : RoutingData} {c t n : String}
    (hs : StepRel a b) (h : LocDone a c t n) : LocDone b c t n := by
  intro r hr
  rcases hs c t n r hr with h' | h'
  · exact h r h'
  · exact resolvedDone_of_writtenOk h'

theorem locOwn_of_stepRel {a b : RoutingData} {c t n : String}
    (hs : StepRel a b) (h : LocOwn a c t n) : LocOwn b c t n := by
  intro r hr
  rcases hs c t n r hr with h' | h'
  · exact h r h'
  · exact h'

theorem origUnres_carry {a b : RoutingData} {c t n : String}
    (hs : StepRel a b) (hm : PresMono a b) (h : OrigUnres a c t n) :
    OrigUnres b c t n ∨ LocOwn b c t n := by
  obtain ⟨r₀, s, hget, hred, hchain⟩ := h
  have hpres : (getPlugin b c t n).isSome := hm c t n (by simp [hget])
  cases hb : getPlugin b c t n with
  | none => rw [hb] at hpres; simp at hpres
  | some r₁ =>
    rcases hs c t n r₁ hb with h' | h'
    · rw [hget] at h'
      cases h'
      exact Or.inl ⟨r₀, s, hb, hred, hchain⟩
    · right
      intro r hr
      rw [hb] at hr
      cases hr
      exact h'

theorem alGet_isSome_mem_keys {α : Type} (m : List (String × α)) (n : String)
    (h : (alGet m n).isSome) : n ∈ m.map (fun p => p.1) := by
  cases hg : alGet m n with
  | none => rw [hg] at h; simp at h
  | some v => exact List.mem_map.mpr ⟨(n, v), alGet_mem m n v hg, rfl⟩

theorem alGet_isSome_of_mem_keys {α : Type} (m : List (String × α)) (n : String)
    (h : n ∈ m.map (fun p => p.1)) : (alGet m n).isSome := by
  induction m with
  | nil => simp at h
  | cons hd tl ih =>
    obtain ⟨a, v⟩ := hd
    by_cases han : a = n
    · simp [alGet, han]
    · simp only [alGet, han, if_false]
      rcases List.mem_map.mp h with ⟨⟨a2, v2⟩, hmem, heq⟩
      simp only at heq
      subst heq
      rcases List.mem_cons.mp hmem with heq2 | hmem2
      · cases heq2; simp at han
      · exact ih (List.mem_map.mpr ⟨(a2, v2), hmem2, rfl⟩)

theorem setPlugin_self (cat : RoutingData) (c t n : String) (v : PluginRouting)
    (h : getPlugin cat c t n = some v) : setPlugin cat c t n v = cat := by
  cases hc : alGet cat c with
  | none => exact setPlugin_eq_of_none cat c t n v hc
  | some cr =>
    cases ht : alGet cr.plugin_data t with
    | none => exact setPlugin_eq_of_none2 cat c t n v cr hc ht
    | some m =>
      rw [setPlugin_eq_of_some cat c t n v cr m hc ht]
      rw [getPlugin_eq cat c t n cr m hc ht] at h
      rw [alSet_self m n v h, alSet_self cr.plugin_data t m ht]
      show alSet cat c cr = cat
      exact alSet_self cat c cr hc

/-! ### Properties of the per-collection resolution loops -/

theorem completeRedirectsNames_props (cn pt : String) :
    ∀ (names : List String) (rd rd' : RoutingData),
      completeRedirectsNames rd cn pt names = Except.ok rd' →
      catShape rd' = catShape rd ∧
      PresMono rd rd' ∧
      StepRel rd rd' ∧
      (∀ n ∈ names, LocDone rd' cn pt n ∧
        (OrigUnres rd cn pt n → LocOwn rd' cn pt n)) := by
  intro names
  induction names with
  | nil =>
    intro rd rd' h
    simp only [completeRedirectsNames] at h
    rw [Except.ok.injEq] at h
    subst h
    refine ⟨rfl, presMono_refl rd, stepRel_refl rd, ?_⟩
    intro n hn
    simp at hn
  | cons n rest ih =>
    intro rd rd' h
    cases hg : getPlugin rd cn pt n with
    | none =>
      simp only [completeRedirectsNames, hg] at h
      exact absurd h (by simp)
    | some pdata =>
      cases hcr : completeRedirect pdata rd cn pt n with
      | error e =>
        simp only [completeRedirectsNames, hg, hcr] at h
        exact absurd h (by simp)
      | ok pr =>
        obtain ⟨cat1, res⟩ := pr
        have h2 : completeRedirectsNames (setPlugin cat1 cn pt n res) cn pt rest =
            Except.ok rd' := by
          simp only [completeRedirectsNames, hg, hcr] at h
          exact h
        obtain ⟨shape1, mono1, waway1, done_res, guard_impl, work_impl⟩ :=
          completeRedirect_props pdata rd cn pt n cat1 res hcr
        have hpres1 : (getPlugin cat1 cn pt n).isSome :=
          mono1 cn pt n (by simp [hg])
        have shape2 : catShape (setPlugin cat1 cn pt n res) = catShape rd := by
          rw [catShape_setPlugin cat1 cn pt n res hpres1]
          exact shape1
        have mono2 : PresMono cat1 (setPlugin cat1 cn pt n res) :=
          presMono_setPlugin cat1 cn pt n res
        have hget2 : getPlugin (setPlugin cat1 cn pt n res) cn pt n = some res :=
          getPlugin_setPlugin_self cat1 cn pt n res hpres1
        have step2 : StepRel cat1 (setPlugin cat1 cn pt n res) := by
          intro x y z r hr
          rcases getPlugin_setPlugin_or cat1 cn pt n res x y z with
            heq | ⟨hxc, hyt, hzn, heq⟩
          · rw [heq] at hr; exact Or.inl hr
          · rw [heq] at hr
            cases hr
            by_cases hdone : resolvedDone pdata = true
            · obtain ⟨hc1, hr1⟩ := guard_impl hdone
              subst hc1
              subst hr1
              subst hxc; subst hyt; subst hzn
              exact Or.inl hg
            · have hform : pdata.redirect_chain = Option.none ∧
                  ∃ s, pdata.redirect = Redirect.str s := by
                unfold resolvedDone at hdone
                cases hred : pdata.redirect with
                | none => rw [hred] at hdone; simp at hdone
                | ellipsis => rw [hred] at hdone; simp at hdone
                | str s =>
                  cases hchain : pdata.redirect_chain with
                  | none => exact ⟨rfl, s, rfl⟩
                  | some l => rw [hred, hchain] at hdone; simp at hdone
              have hstart := work_impl hform.1 hform.2
              subst hxc; subst hyt; subst hzn
              exact Or.inr ((writtenOk_iff_chainStartsAt cn n res).mpr hstart)
        have step1 : StepRel rd cat1 := by
          intro x y z r hr
          rcases waway1 x y z r hr with h' | ⟨h', _⟩
          · exact Or.inl h'
          · exact Or.inr h'
        obtain ⟨shape3, mono3, step3, hrest⟩ := ih (setPlugin cat1 cn pt n res)
          rd' h2
        have stepAll : StepRel rd rd' :=
          stepRel_trans (stepRel_trans step1 step2) step3
        have monoAll : PresMono rd rd' :=
          presMono_trans (presMono_trans mono1 mono2) mono3
        refine ⟨by rw [shape3, shape2], monoAll, stepAll, ?_⟩
        intro n' hn'
        rcases List.mem_cons.mp hn' with heq | hmem
        · subst heq
          have locdone2 : LocDone (setPlugin cat1 cn pt n' res) cn pt n' := by
            intro r hr
            rw [hget2] at hr
            cases hr
            exact done_res
          refine ⟨locDone_of_stepRel step3 locdone2, ?_⟩
          intro horig
          obtain ⟨r₀, s, hget0, hred0, hchain0⟩ := horig
          rw [hg] at hget0
          cases hget0
          have hstart := work_impl hchain0 ⟨s, hred0⟩
          have locown2 : LocOwn (setPlugin cat1 cn pt n' res) cn pt n' := by
            intro r hr
            rw [hget2] at hr
            cases hr
            exact (writtenOk_iff_chainStartsAt cn n' res).mpr hstart
          exact locOwn_of_stepRel step3 locown2
        · obtain ⟨hdone', himpl'⟩ := hrest n' hmem
          refine ⟨hdone', ?_⟩
          intro horig
          rcases origUnres_carry (stepRel_trans step1 step2) (presMono_trans mono1 mono2) horig with
            horig2 | hown2
          · exact himpl' horig2
          · exact locOwn_of_stepRel step3 hown2

theorem completeRedirectsTypes_props (cn : String) :
    ∀ (types : List String) (rd rd' : RoutingData),
      completeRedirectsTypes rd cn types = Except.ok rd' →
      catShape rd' = catShape rd ∧
      PresMono rd rd' ∧
      StepRel rd rd' ∧
      (∀ t ∈ types, ∀ n, (getPlugin rd cn t n).isSome →
        LocDone rd' cn t n ∧ (OrigUnres rd cn t n → LocOwn rd' cn t n)) := by
  intro types
  induction types with
  | nil =>
    intro rd rd' h
    simp only [completeRedirectsTypes] at h
    rw [Except.ok.injEq] at h
    subst h
    refine ⟨rfl, presMono_refl rd, stepRel_refl rd, ?_⟩
    intro t ht
    simp at ht
  | cons t rest ih =>
    intro rd rd' h
    cases hnm : completeRedirectsNames rd cn t
        (match alGet rd cn with
         | some cr => ((alGet cr.plugin_data t).getD []).map
             (fun (q : String × PluginRouting) => q.1)
         | Option.none => []) with
    | error e =>
      simp only [completeRedirectsTypes, hnm] at h
      exact absurd h (by simp)
    | ok rd1 =>
      have h2 : completeRedirectsTypes rd1 cn rest = Except.ok rd' := by
        simp only [completeRedirectsTypes, hnm] at h
        exact h
      obtain ⟨shape1, mono1, step1, hnames⟩ :=
        completeRedirectsNames_props cn t _ rd rd1 hnm
      obtain ⟨shape2, mono2, step2, htypes⟩ := ih rd1 rd' h2
      refine ⟨by rw [shape2, shape1], presMono_trans mono1 mono2, stepRel_trans step1 step2, ?_⟩
      intro t' ht' n hpres
      rcases List.mem_cons.mp ht' with heq | hmem
      · subst heq
        have hcov : n ∈ (match alGet rd cn with
            | some cr => ((alGet cr.plugin_data t').getD []).map
                (fun (q : String × PluginRouting) => q.1)
            | Option.none => []) := by
          cases hc : alGet rd cn with
          | none => simp [getPlugin, hc] at hpres
          | some cr =>
            cases hmt : alGet cr.plugin_data t' with
            | none => simp [getPlugin, hc, hmt] at hpres
            | some m =>
              rw [getPlugin_eq rd cn t' n cr m hc hmt] at hpres
              simp only [hc, hmt]
              simpa using alGet_isSome_mem_keys m n hpres
        obtain ⟨hdone1, himpl1⟩ := hnames n hcov
        refine ⟨locDone_of_stepRel step2 hdone1, ?_⟩
        intro horig
        exact locOwn_of_stepRel step2 (himpl1 horig)
      · obtain ⟨hdone2, himpl2⟩ := htypes t' hmem n (mono1 cn t' n hpres)
        refine ⟨hdone2, ?_⟩
        intro horig
        rcases origUnres_carry step1 mono1 horig with horig1 | hown1
        · exact himpl2 horig1
        · exact locOwn_of_stepRel step2 hown1

theorem completeRedirectsForCollection_props (rd : RoutingData) (cn : String)
    (rd' : RoutingData)
    (h : completeRedirectsForCollection rd cn = Except.ok rd') :
    catShape rd' = catShape rd ∧
    PresMono rd rd' ∧
    StepRel rd rd' ∧
    (∀ t n, (getPlugin rd cn t n).isSome →
      LocDone rd' cn t n ∧ (OrigUnres rd cn t n → LocOwn rd' cn t n)) := by
  cases hc : alGet rd cn with
  | none =>
    simp only [completeRedirectsForCollection, hc] at h
    rw [Except.ok.injEq] at h
    subst h
    refine ⟨rfl, presMono_refl rd, stepRel_refl rd, ?_⟩
    intro t n hpres
    simp [getPlugin, hc] at hpres
  | some cr =>
    simp only [completeRedirectsForCollection, hc] at h
    obtain ⟨s1, m1, st1, htypes⟩ := completeRedirectsTypes_props cn _ rd rd' h
    refine ⟨s1, m1, st1, ?_⟩
    intro t n hpres
    have ht : t ∈ cr.plugin_data.map (fun q => q.1) := by
      cases hmt : alGet cr.plugin_data t with
      | none => simp [getPlugin, hc, hmt] at hpres
      | some m =>
        exact alGet_isSome_mem_keys cr.plugin_data t (by simp [hmt])
    exact htypes t ht n hpres

theorem completeRedirectsColls_props :
    ∀ (colls : List String) (rd rd' : RoutingData),
      completeRedirectsColls rd colls = Except.ok rd' →
      catShape rd' = catShape rd ∧
      PresMono rd rd' ∧
      StepRel rd rd' ∧
      (∀ c ∈ colls, ∀ t n, (getPlugin rd c t n).isSome →
        LocDone rd' c t n ∧ (OrigUnres rd c t n → LocOwn rd' c t n)) := by
  intro colls
  induction colls with
  | nil =>
    intro rd rd' h
    simp only [completeRedirectsColls] at h
    rw [Except.ok.injEq] at h
    subst h
    refine ⟨rfl, presMono_refl rd, stepRel_refl rd, ?_⟩
    intro c hc
    simp at hc
  | cons c rest ih =>
    intro rd rd' h
    cases hfc : completeRedirectsForCollection rd c with
    | error e =>
      simp only [completeRedirectsColls, hfc] at h
      exact absurd h (by simp)
    | ok rd1 =>
      have h2 : completeRedirectsColls rd1 rest = Except.ok rd' := by
        simp only [completeRedirectsColls, hfc] at h
        exact h
      obtain ⟨shape1, mono1, step1, hcoll⟩ :=
        completeRedirectsForCollection_props rd c rd1 hfc
      obtain ⟨shape2, mono2, step2, hcolls⟩ := ih rd1 rd' h2
      refine ⟨by rw [shape2, shape1], presMono_trans mono1 mono2, stepRel_trans step1 step2, ?_⟩
      intro c' hc' t n hpres
      rcases List.mem_cons.mp hc' with heq | hmem
      · subst heq
        obtain ⟨hdone1, himpl1⟩ := hcoll t n hpres
        refine ⟨locDone_of_stepRel step2 hdone1, ?_⟩
        intro horig
        exact locOwn_of_stepRel step2 (himpl1 horig)
      · obtain ⟨hdone2, himpl2⟩ := hcolls c' hmem t n (mono1 c' t n hpres)
        refine ⟨hdone2, ?_⟩
        intro horig
        rcases origUnres_carry step1 mono1 horig with horig1 | hown1
        · exact himpl2 horig1
        · exact locOwn_of_stepRel step2 hown1

theorem completeRedirects_props (rd rd' : RoutingData)
    (h : completeRedirects rd = Except.ok rd') :
    catShape rd' = catShape rd ∧ AllDone rd' ∧
    (∀ c t n, OrigUnres rd c t n → LocOwn rd' c t n) := by
  rw [completeRedirects] at h
  obtain ⟨s1, m1, st1, hcolls⟩ :=
    completeRedirectsColls_props _ rd rd' h
  have hkey : ∀ c, (alGet rd c).isSome → c ∈ rd.map (fun p => p.1) :=
    fun c hc => alGet_isSome_mem_keys rd c hc
  refine ⟨s1, ?_, ?_⟩
  · intro c t n r hr
    have hpres_rd : (getPlugin rd c t n).isSome :=
      getPlugin_isSome_of_catShape_eq s1 c t n (by simp [hr])
    have hc : c ∈ rd.map (fun p => p.1) := by
      apply hkey
      cases hcg : alGet rd c with
      | none => simp [getPlugin, hcg] at hpres_rd
      | some cr => simp [hcg]
    exact (hcolls c hc t n hpres_rd).1 r hr
  · intro c t n horig
    have hpres_rd : (getPlugin rd c t n).isSome := by
      obtain ⟨r₀, _, hget, _, _⟩ := horig
      simp [hget]
    have hc : c ∈ rd.map (fun p => p.1) := by
      apply hkey
      cases hcg : alGet rd c with
      | none => simp [getPlugin, hcg] at hpres_rd
      | some cr => simp [hcg]
    exact (hcolls c hc t n hpres_rd).2 horig

/-! ### Resolution of a fully resolved catalog is a no-op -/

theorem allDone_names_noop (rd : RoutingData) (cn t : String) (h : AllDone rd) :
    ∀ (names : List String), (∀ n ∈ names, (getPlugin rd cn t n).isSome) →
      completeRedirectsNames rd cn t names = Except.ok rd := by
  intro names
  induction names with
  | nil => intro _; simp [completeRedirectsNames]
  | cons n rest ih =>
    intro hp
    have hn := hp n (List.mem_cons_self n rest)
    cases hg : getPlugin rd cn t n with
    | none => rw [hg] at hn; simp at hn
    | some pdata =>
      have hguard := completeRedirect_guard pdata rd cn t n (h cn t n pdata hg)
      simp only [completeRedirectsNames, hg, hguard]
      rw [setPlugin_self rd cn t n pdata hg]
      exact ih (fun n' hn' => hp n' (List.mem_cons_of_mem _ hn'))

theorem allDone_types_noop (rd : RoutingData) (cn : String) (h : AllDone rd) :
    ∀ (types : List String), completeRedirectsTypes rd cn types = Except.ok rd := by
  intro types
  induction types with
  | nil => simp [completeRedirectsTypes]
  | cons t rest ih =>
    have hnames : completeRedirectsNames rd cn t
        (match alGet rd cn with
         | some cr => ((alGet cr.plugin_data t).getD []).map (fun q => q.1)
         | Option.none => []) = Except.ok rd := by
      apply allDone_names_noop rd cn t h
      intro n hn
      cases hc : alGet rd cn with
      | none => simp only [hc] at hn; simp at hn
      | some cr =>
        simp only [hc] at hn
        cases hmt : alGet cr.plugin_data t with
        | none => rw [hmt] at hn; simp at hn
        | some m =>
          rw [hmt] at hn
          simp only [Option.getD_some] at hn
          rw [getPlugin_eq rd cn t n cr m hc hmt]
          exact alGet_isSome_of_mem_keys m n hn
    simp only [completeRedirectsTypes, hnames]
    exact ih

theorem allDone_noop (rd : RoutingData) (h : AllDone rd) :
    ∀ (colls : List String), completeRedirectsColls rd colls = Except.ok rd := by
  intro colls
  induction colls with
  | nil => simp [completeRedirectsColls]
  | cons c rest ih =>
    have hfc : completeRedirectsForCollection rd c = Except.ok rd := by
      cases hc : alGet rd c with
      | none => simp [completeRedirectsForCollection, hc]
      | some cr =>
        simp only [completeRedirectsForCollection, hc]
        exact allDone_types_noop rd c h _
    simp only [completeRedirectsColls, hfc]
    exact ih

theorem allDone_of_allPlugins (cat : RoutingData)
    (h : allPlugins cat resolvedDone = true) : AllDone cat := by
  intro c t n r hr
  unfold getPlugin at hr
  cases hc : alGet cat c with
  | none => rw [hc] at hr; simp at hr
  | some cr =>
    rw [hc] at hr
    simp only [] at hr
    cases hmt : alGet cr.plugin_data t with
    | none => rw [hmt] at hr; simp at hr
    | some m =>
      rw [hmt] at hr
      simp only [] at hr
      unfold allPlugins at h
      rw [List.all_eq_true] at h
      have h1 := h (c, cr) (alGet_mem cat c cr hc)
      rw [List.all_eq_true] at h1
      have h2 := h1 (t, m) (alGet_mem cr.plugin_data t m hmt)
      rw [List.all_eq_true] at h2
      exact h2 (n, r) (alGet_mem m n r hr)

/-! ### Claims settled by the general lemmas -/

/-- Claim C5: resolution is idempotent.  `_complete_redirect` applied to a
node whose `redirect_chain` is already populated, or whose `redirect` is
absent or already the cycle marker, returns the catalog and the node
unchanged; and a catalog produced by `complete_redirects` is a fixed point of
`complete_redirects`. -/
theorem claim_C5 :
    (∀ (pd : PluginRouting) (rd : RoutingData) (cn t n : String),
      (pd.redirect = Redirect.none ∨ pd.redirect = Redirect.ellipsis ∨
        pd.redirect_chain.isSome) →
      completeRedirect pd rd cn t n = Except.ok (rd, pd)) ∧
    (∀ (rd rd' : RoutingData), completeRedirects rd = Except.ok rd' →
      completeRedirects rd' = Except.ok rd') := by
  constructor
  · intro pd rd cn t n hguard
    apply completeRedirect_guard
    rcases hguard with h | h | h
    · simp [resolvedDone, h]
    · simp [resolvedDone, h]
    · cases hred : pd.redirect with
      | none => simp [resolvedDone, hred]
      | ellipsis => simp [resolvedDone, hred]
      | str s =>
        cases hchain : pd.redirect_chain with
        | none => rw [hchain] at h; simp at h
        | some l => simp [resolvedDone, hred, hchain]
  · intro rd rd' h
    obtain ⟨_, hdone, _⟩ := completeRedirects_props rd rd' h
    rw [completeRedirects]
    exact allDone_noop rd' hdone _

/-- Witness for claim C5: the guard no-op at a blank record, and idempotence
on the resolved tombstone-chain catalog. -/
theorem claim_C5_witness :
    completeRedirect blankPR catTombChain "foo.bar" "lookup" "x" =
      Except.ok (catTombChain, blankPR) ∧
    completeRedirects resTombChain = Except.ok resTombChain :=
  ⟨claim_C5.1 blankPR catTombChain "foo.bar" "lookup" "x" (Or.inl rfl),
   claim_C5.2 catTombChain resTombChain rfl⟩

/-- Claim C7, amended: `complete_redirects` is a pure function of the catalog
together with its iteration order, and once every record is resolved, a
further pass in any collection order returns the catalog unchanged — but
different plugin-name iteration orders over the same mapping can produce
different resolved catalogs (see the counterexample). -/
theorem claim_C7_amended (rd : RoutingData) (h : AllDone rd) :
    (∀ colls : List String, completeRedirectsColls rd colls = Except.ok rd) ∧
    completeRedirects rd = Except.ok rd := by
  refine ⟨allDone_noop rd h, ?_⟩
  rw [completeRedirects]
  exact allDone_noop rd h _

/-- Witness for the amended claim C7 on a concrete resolved cycle catalog,
with a collection order that repeats and mentions unknown names. -/
theorem claim_C7_amended_witness :
    completeRedirectsColls (resCycle3 (warnRecord "a") (warnRecord "c"))
      ["zzz", "foo.bar", "foo.bar"] =
      Except.ok (resCycle3 (warnRecord "a") (warnRecord "c")) ∧
    completeRedirects (resCycle3 (warnRecord "a") (warnRecord "c")) =
      Except.ok (resCycle3 (warnRecord "a") (warnRecord "c")) :=
  ⟨(claim_C7_amended (resCycle3 (warnRecord "a") (warnRecord "c"))
      (allDone_of_allPlugins _ (by decide))).1 ["zzz", "foo.bar", "foo.bar"],
   (claim_C7_amended (resCycle3 (warnRecord "a") (warnRecord "c"))
      (allDone_of_allPlugins _ (by decide))).2⟩

/-- Claim C9: every catalog rewrite of the resolver preserves the key
structure of the catalog — the collection names, the plugin types per
collection, and the plugin names per type (`catShape`) are unchanged by
`complete_redirects`, `complete_redirects_for_collection` and
`_complete_redirect`; values are only replaced at already-existing keys. -/
theorem claim_C9 :
    (∀ (rd rd' : RoutingData), completeRedirects rd = Except.ok rd' →
      catShape rd' = catShape rd) ∧
    (∀ (rd : RoutingData) (cn : String) (rd' : RoutingData),
      completeRedirectsForCollection rd cn = Except.ok rd' →
      catShape rd' = catShape rd) ∧
    (∀ (pd : PluginRouting) (rd : RoutingData) (cn t n : String)
      (out : RoutingData × PluginRouting),
      completeRedirect pd rd cn t n = Except.ok out →
      catShape out.1 = catShape rd) := by
  refine ⟨?_, ?_, ?_⟩
  · intro rd rd' h
    exact (completeRedirects_props rd rd' h).1
  · intro rd cn rd' h
    exact (completeRedirectsForCollection_props rd cn rd' h).1
  · intro pd rd cn t n out h
    obtain ⟨o1, o2⟩ := out
    exact (completeRedirect_props pd rd cn t n o1 o2 h).1

/-- Witness for claim C9 at concrete catalogs for all three operations. -/
theorem claim_C9_witness :
    catShape resTombChain = catShape catTombChain ∧
    catShape resBrokenChain = catShape catBrokenChain ∧
    catShape catNonFqcn = catShape catNonFqcn :=
  ⟨claim_C9.1 catTombChain resTombChain rfl,
   claim_C9.2.1 catBrokenChain "foo.bar" resBrokenChain rfl,
   claim_C9.2.2 (redirectTo "bad") catNonFqcn "foo.bar" "module" "p"
     (catNonFqcn, expNonFqcn) rfl⟩

/-- Claim C2, amended: after `complete_redirects`, every plugin whose original
redirect was a string and whose chain was not yet populated ends with a
non-empty `redirect_chain` whose first element is its own FQN, and a redirect
that is the cycle marker or a target string. -/
theorem claim_C2_amended (rd rd' : RoutingData) (c t n : String)
    (r₀ : PluginRouting) (s : String) (r' : PluginRouting)
    (hrun : completeRedirects rd = Except.ok rd')
    (hget : getPlugin rd c t n = some r₀)
    (hred : r₀.redirect = Redirect.str s)
    (hchain : r₀.redirect_chain = Option.none)
    (hget' : getPlugin rd' c t n = some r') :
    ∃ l, r'.redirect_chain = some l ∧ l.head? = some (c ++ "." ++ n) ∧
      r'.redirect ≠ Redirect.none := by
  obtain ⟨_, _, hown⟩ := completeRedirects_props rd rd' hrun
  exact hown c t n ⟨r₀, s, hget, hred, hchain⟩ r' hget'

/-- Witness for the amended claim C2 at the non-FQCN dead-end catalog. -/
theorem claim_C2_amended_witness :
    ∃ l, expNonFqcn.redirect_chain = some l ∧
      l.head? = some ("foo.bar" ++ "." ++ "p") ∧
      expNonFqcn.redirect ≠ Redirect.none :=
  claim_C2_amended catNonFqcn resNonFqcn "foo.bar" "module" "p"
    (redirectTo "bad") "bad" expNonFqcn rfl rfl rfl rfl rfl
